import Mathlib

/-! # Reconciliation and lifecycle engine of the database operator

A shallow embedding of

* `vendor/kubedb.dev/memcached/pkg/controller/workqueue.go` (`runMemcached`),
* `vendor/kubedb.dev/redis/pkg/controller/dormant_database.go`
  (`deleteMatchingDormantDatabase`, `createDormantDatabase`),
* `vendor/kubedb.dev/pgbouncer/pkg/controller/service.go`
  (`ensureService`, `checkService`, `createOrPatchService`, `upsertServicePort`),
* `vendor/kubedb.dev/pgbouncer/pkg/admission/mutator.go`
  (`Admit`, `setDefaultValues`, `setMonitoringPort`).

Go pointers that may be nil are `Option`s, `int32` values are `Int`s (the code only
compares them), `map[string]string` is an association list read with `lookupLabel`, and a
Go `error` result is an `Option Err` (`none` is `nil`).  Calls to the cluster API go through
an explicit `Cluster` state; an operation is a function from the cluster to an `Outcome`
(value, new cluster, events issued), or `none` when the Go code dereferences a nil pointer.
-/

namespace Operator

/-! ## Errors -/

/-- Errors returned by the cluster API and by the controllers. `NotFound`, `AlreadyExists`
and `Conflict` are the API failures the code and the spec distinguish; everything else is
`Other`. -/
inductive Err where
  | NotFound
  | AlreadyExists
  | Conflict
  | Other (msg : String)
  deriving DecidableEq, Repr

/-- The test `kerr.IsNotFound(err)`. -/
def IsNotFound (err : Err) : Bool :=
  match err with
  | .NotFound => true
  | _ => false

/-- The message `err.Error()`. -/
def Err.Error (err : Err) : String :=
  match err with
  | .NotFound => "not found"
  | .AlreadyExists => "already exists"
  | .Conflict => "conflict"
  | .Other msg => msg

/-- The outcome kinds `kutil.VerbType` of a create-or-patch. -/
inductive VerbType where
  | VerbUnchanged
  | VerbCreated
  | VerbPatched
  deriving DecidableEq, Repr

/-! ## Object metadata -/

/-- A `map[string]string`. -/
abbrev StringMap := List (String × String)

/-- The map read `m[key]`: the value stored under `key`, the empty string when there is
none. -/
def lookupLabel (m : StringMap) (key : String) : String :=
  match m.find? (fun kv => kv.1 == key) with
  | some kv => kv.2
  | none => ""

/-- The type `metav1.OwnerReference`. -/
structure OwnerReference where
  APIVersion : String := ""
  Kind : String := ""
  Name : String := ""
  UID : String := ""
  Controller : Bool := false
  BlockOwnerDeletion : Bool := false
  deriving DecidableEq, Repr

/-- The fields of `metav1.ObjectMeta` that the controllers read or write. -/
structure ObjectMeta where
  Name : String := ""
  Namespace : String := ""
  UID : String := ""
  Labels : StringMap := []
  Annotations : StringMap := []
  CreationTimestamp : Nat := 0
  DeletionTimestamp : Option Nat := none
  Finalizers : List String := []
  OwnerReferences : List OwnerReference := []
  deriving DecidableEq, Repr

/-- Whether the metadata is that of the object stored under `ns/name`. -/
def ObjectMeta.hasKey (m : ObjectMeta) (ns name : String) : Bool :=
  m.Namespace == ns && m.Name == name

/-- Three-way merge of one field: the patch computed from `cur` to `mod` carries the field
only when it changed, and the server then overwrites its own value `srv`. -/
def merge3 {α : Type} [DecidableEq α] (cur mod srv : α) : α :=
  if mod = cur then srv else mod

/-- Modelled from the spec: the store's `Patch` ("issue a patch containing only the changed
fields", §4.3, §6) is served by the API server, which is not among the sources. The fields
of the metadata that differ between `cur` and `mod` are written over the stored ones. -/
def ObjectMeta.applyPatch (cur mod srv : ObjectMeta) : ObjectMeta :=
  { srv with
    Labels := merge3 cur.Labels mod.Labels srv.Labels
    Annotations := merge3 cur.Annotations mod.Annotations srv.Annotations
    Finalizers := merge3 cur.Finalizers mod.Finalizers srv.Finalizers
    OwnerReferences := merge3 cur.OwnerReferences mod.OwnerReferences srv.OwnerReferences }

/-- Modelled from the spec: `core_util.HasFinalizer` belongs to a client library that is not
among the sources; a finalizer is "a marker on an object" held in its finalizer list. -/
def HasFinalizer (m : ObjectMeta) (finalizer : String) : Bool :=
  m.Finalizers.any (fun name => name == finalizer)

/-- Modelled from the spec: `core_util.AddFinalizer` (not among the sources) records the
finalizer as present: it is appended unless the list already holds it. -/
def AddFinalizer (m : ObjectMeta) (finalizer : String) : ObjectMeta :=
  if HasFinalizer m finalizer then m else { m with Finalizers := m.Finalizers ++ [finalizer] }

/-- Modelled from the spec: `core_util.RemoveFinalizer` (not among the sources) removes the
finalizer: every entry equal to it is dropped from the list. -/
def RemoveFinalizer (m : ObjectMeta) (finalizer : String) : ObjectMeta :=
  { m with Finalizers := m.Finalizers.filter (fun name => name != finalizer) }

/-! ## Resource kinds -/

/-- The type `api.MemcachedSpec`, as far as the reconciler is concerned. -/
structure MemcachedSpec where
  Version : String := ""
  Replicas : Option Int := none
  deriving DecidableEq, Repr

/-- The type `api.Memcached`. -/
structure Memcached where
  ObjectMeta : Operator.ObjectMeta := {}
  Spec : MemcachedSpec := {}
  deriving DecidableEq, Repr

/-- The type `api.RedisSpec`, as far as the dormant-database code is concerned. -/
structure RedisSpec where
  Version : String := ""
  Replicas : Option Int := none
  Mode : String := ""
  deriving DecidableEq, Repr

/-- The type `api.Redis`. -/
structure Redis where
  ObjectMeta : Operator.ObjectMeta := {}
  Spec : RedisSpec := {}
  deriving DecidableEq, Repr

/-- The type `ofst.PartialObjectMeta`. -/
structure PartialObjectMeta where
  Name : String := ""
  Namespace : String := ""
  Labels : StringMap := []
  Annotations : StringMap := []
  CreationTimestamp : Nat := 0
  deriving DecidableEq, Repr

/-- The type `api.OriginSpec`: one optional spec per engine kind; only the Redis variant is
written by the code embedded here. -/
structure OriginSpec where
  Redis : Option RedisSpec := none
  Memcached : Option MemcachedSpec := none
  deriving DecidableEq, Repr

/-- The type `api.Origin`. -/
structure Origin where
  PartialObjectMeta : Operator.PartialObjectMeta := {}
  Spec : OriginSpec := {}
  deriving DecidableEq, Repr

/-- The type `api.DormantDatabaseSpec`. -/
structure DormantDatabaseSpec where
  WipeOut : Bool := false
  Origin : Operator.Origin := {}
  deriving DecidableEq, Repr

/-- The type `api.DormantDatabase`. -/
structure DormantDatabase where
  ObjectMeta : Operator.ObjectMeta := {}
  Spec : DormantDatabaseSpec := {}
  deriving DecidableEq, Repr

/-- The type `intstr.IntOrString`. -/
inductive IntOrString where
  | FromInt (val : Int)
  | FromString (val : String)
  deriving DecidableEq, Repr

/-- The type `core.ServicePort`. -/
structure ServicePort where
  Name : String := ""
  Protocol : String := ""
  Port : Int := 0
  TargetPort : IntOrString := .FromInt 0
  NodePort : Int := 0
  deriving DecidableEq, Repr

/-- The fields of `core.ServiceSpec` that the service code writes (`ServiceType` is the Go
field `Type`). -/
structure ServiceSpec where
  Ports : List ServicePort := []
  Selector : StringMap := []
  ClusterIP : String := ""
  ServiceType : String := ""
  ExternalIPs : List String := []
  LoadBalancerIP : String := ""
  LoadBalancerSourceRanges : List String := []
  ExternalTrafficPolicy : String := ""
  HealthCheckNodePort : Int := 0
  deriving DecidableEq, Repr

/-- The type `core.Service`. -/
structure Service where
  ObjectMeta : Operator.ObjectMeta := {}
  Spec : ServiceSpec := {}
  deriving DecidableEq, Repr

/-- The type `ofst.ServicePort` of a service template. -/
structure TemplatePort where
  Name : String := ""
  Port : Int := 0
  NodePort : Int := 0
  deriving DecidableEq, Repr

/-- The type `ofst.ServiceSpec` of a service template (`ServiceType` is the Go field
`Type`). -/
structure TemplateServiceSpec where
  Ports : List TemplatePort := []
  ClusterIP : String := ""
  ServiceType : String := ""
  ExternalIPs : List String := []
  LoadBalancerIP : String := ""
  LoadBalancerSourceRanges : List String := []
  ExternalTrafficPolicy : String := ""
  HealthCheckNodePort : Int := 0
  deriving DecidableEq, Repr

/-- The type `ofst.ServiceTemplateSpec`. -/
structure ServiceTemplateSpec where
  Annotations : StringMap := []
  Spec : TemplateServiceSpec := {}
  deriving DecidableEq, Repr

/-- The type `api.ConnectionPoolConfig`: `Port` is a `*int32`. -/
structure ConnectionPoolConfig where
  Port : Option Int := none
  PoolMode : String := ""
  MaxClientConnections : Option Int := none
  deriving DecidableEq, Repr

/-- The type `mona.PrometheusSpec`. -/
structure PrometheusSpec where
  Port : Int := 0
  Namespace : String := ""
  Labels : StringMap := []
  Interval : String := ""
  deriving DecidableEq, Repr

/-- The type `mona.AgentSpec`: the monitoring spec of a database. -/
structure AgentSpec where
  Agent : String := ""
  Prometheus : Option PrometheusSpec := none
  deriving DecidableEq, Repr

/-- The type `api.PgBouncerSpec`. -/
structure PgBouncerSpec where
  Version : String := ""
  Replicas : Option Int := none
  ServiceTemplate : ServiceTemplateSpec := {}
  ConnectionPool : Option ConnectionPoolConfig := none
  Monitor : Option AgentSpec := none
  deriving DecidableEq, Repr

/-- The type `api.PgBouncer`. -/
structure PgBouncer where
  ObjectMeta : Operator.ObjectMeta := {}
  Spec : PgBouncerSpec := {}
  deriving DecidableEq, Repr

/-! ## Declarations of the API packages

The constants and helper methods of `kubedb.dev/apimachinery` and of the monitoring API are
declared outside the sources; the code is embedded over an arbitrary value `api : Api`. -/

/-- The constants and pure helpers that the sources import from the API packages. -/
structure Api where
  GenericKey : String
  LabelDatabaseKind : String
  LabelDatabaseName : String
  ResourceKindPgBouncer : String
  ResourceKindRedis : String
  Group : String
  Version : String
  PrometheusExporterPortNumber : Int
  PrometheusExporterPortName : String
  VendorPrometheus : String
  Vendor : String → String
  OffshootName : PgBouncer → String
  OffshootLabels : PgBouncer → StringMap
  OffshootSelectors : PgBouncer → StringMap

/-- An instance of `Api` with the constants the API packages publish: the vendor of an agent is
the part of its name before the first slash (the deprecated agent name
`coreos-prometheus-operator` is of the Prometheus vendor as well), the offshoot of a
PgBouncer carries its name, and its labels are cut down to the two that `checkService`
reads. The theorems hold for every `api`; this instance serves the concrete inputs. -/
def kubedb : Api where
  GenericKey := "kubedb.com"
  LabelDatabaseKind := "kubedb.com/kind"
  LabelDatabaseName := "kubedb.com/name"
  ResourceKindPgBouncer := "PgBouncer"
  ResourceKindRedis := "Redis"
  Group := "kubedb.com"
  Version := "v1alpha1"
  PrometheusExporterPortNumber := 56790
  PrometheusExporterPortName := "prom-http"
  VendorPrometheus := "prometheus.io"
  Vendor := fun agent =>
    if agent = "coreos-prometheus-operator" then "prometheus.io"
    else String.mk (agent.data.takeWhile (fun ch => ch != '/'))
  OffshootName := fun p => p.ObjectMeta.Name
  OffshootLabels := fun p =>
    [("kubedb.com/kind", "PgBouncer"), ("kubedb.com/name", p.ObjectMeta.Name)]
  OffshootSelectors := fun p =>
    [("kubedb.com/kind", "PgBouncer"), ("kubedb.com/name", p.ObjectMeta.Name)]

/-! ## The cluster and operations on it -/

/-- What an operation does that is visible outside it: requests sent to the API server
(served or failed) and calls of controller methods whose code is outside the sources. -/
inductive Event where
  | Get (kind ns name : String)
  | Delete (kind ns name : String)
  | PatchMemcached (cur mod : Memcached)
  | PatchDormantDatabase (cur mod : DormantDatabase)
  | CreateDormantDatabase (obj : DormantDatabase)
  | CreateService (obj : Service)
  | PatchService (cur mod : Service)
  | terminate (memcached : Memcached)
  | create (memcached : Memcached)
  | pushFailureEvent (memcached : Memcached) (msg : String)
  | Eventf (reason msg : String)
  deriving DecidableEq, Repr

/-- Modelled from the spec: the object store of §6 (`Get/Create/Patch/Delete` per resource
kind) is the cluster API server, which is not among the sources. The cluster holds the stored
objects of each kind and `faults`, the outcome the server gives to the successive requests:
`some err` fails the request with `err` and leaves the objects as they are, `none` serves
it; when the list is used up every request is served. -/
structure Cluster where
  Memcacheds : List Memcached := []
  DormantDatabases : List DormantDatabase := []
  Services : List Service := []
  faults : List (Option Err) := []
  deriving DecidableEq, Repr

/-- What an operation leaves behind: its result, the cluster and the events it issued. -/
structure Outcome (α : Type) where
  val : α
  cluster : Cluster
  events : List Event

/-- An operation on the cluster; `none` is a Go panic (nil pointer dereference). -/
def Op (α : Type) : Type := Cluster → Option (Outcome α)

/-- The operation that does nothing and returns `a`. -/
def Op.pure {α : Type} (a : α) : Op α :=
  fun s => some ⟨a, s, []⟩

/-- Sequencing: `f` runs in the cluster `m` left, and the events are concatenated. -/
def Op.bind {α β : Type} (m : Op α) (f : α → Op β) : Op β :=
  fun s =>
    match m s with
    | none => none
    | some r =>
      match f r.val r.cluster with
      | none => none
      | some r2 => some ⟨r2.val, r2.cluster, r.events ++ r2.events⟩

instance : Monad Op where
  pure := Op.pure
  bind := Op.bind

/-- The nil pointer dereference. -/
def Op.nilDereference {α : Type} : Op α :=
  fun _ => none

/-- Issue the event `ev` without touching the cluster. -/
def Op.emit (ev : Event) : Op Unit :=
  fun s => some ⟨(), s, [ev]⟩

/-- Call a controller method whose code is outside the sources: `f` is what it does to the
cluster and returns, `ev` records the call. -/
def Op.call {α : Type} (ev : Event) (f : Cluster → α × Cluster) : Op α :=
  fun s => some ⟨(f s).1, (f s).2, [ev]⟩

/-- The failure, if any, that the API server gives to the next request. -/
def Cluster.nextFault (s : Cluster) : Option Err :=
  s.faults.headD none

/-- The cluster once the next request has been received. -/
def Cluster.advance (s : Cluster) : Cluster :=
  { s with faults := s.faults.tail }

/-- Send a request to the API server: the next entry of `faults` decides whether it fails;
when it is served, `f` computes the answer and the new cluster. -/
def Op.request {α : Type} (ev : Event) (f : Cluster → Except Err α × Cluster) :
    Op (Except Err α) :=
  fun s =>
    match s.nextFault with
    | some err => some ⟨.error err, s.advance, [ev]⟩
    | none => some ⟨(f s.advance).1, (f s.advance).2, [ev]⟩

/-- Replace by `f x` the first element `x` of the list that satisfies `p`. -/
def updateFirst {α : Type} (p : α → Bool) (f : α → α) : List α → List α
  | [] => []
  | x :: xs => if p x then f x :: xs else x :: updateFirst p f xs

/-- Remove the first element of the list that satisfies `p`. -/
def removeFirst {α : Type} (p : α → Bool) : List α → List α
  | [] => []
  | x :: xs => if p x then xs else x :: removeFirst p xs

/-! ## Memcached: the reconciler `runMemcached` -/

/-- Modelled from the spec: the server side of a Memcached patch (see `ObjectMeta.applyPatch`). -/
def Memcached.applyPatch (cur mod srv : Memcached) : Memcached :=
  { ObjectMeta := ObjectMeta.applyPatch cur.ObjectMeta mod.ObjectMeta srv.ObjectMeta
    Spec := merge3 cur.Spec mod.Spec srv.Spec }

/-- Modelled from the spec: `Memcacheds(ns).Patch(name, patch)` of the store contract (§6).
The patch is the difference from `cur` to `mod`; the answer is the stored object after the
patch, or not-found when nothing is stored under the name. -/
def Memcacheds.Patch (cur mod : Memcached) : Op (Except Err Memcached) :=
  Op.request (.PatchMemcached cur mod) fun s =>
    let p := fun (o : Memcached) => o.ObjectMeta.hasKey cur.ObjectMeta.Namespace cur.ObjectMeta.Name
    match s.Memcacheds.find? p with
    | none => (.error .NotFound, s)
    | some srv =>
      (.ok (Memcached.applyPatch cur mod srv),
        { s with Memcacheds := updateFirst p (Memcached.applyPatch cur mod) s.Memcacheds })

/-- Modelled from the spec: `util.PatchMemcached` is not among the sources. It is the patch
half of create-or-patch (§4.3): the transform is applied to a copy of the observed object;
"if no field of interest differs, no write occurs", otherwise a patch with the changed
fields is sent and the object the store answers is returned. -/
def PatchMemcached (cur : Memcached) (transform : Memcached → Memcached) :
    Op (Except Err (Memcached × VerbType)) :=
  let mod := transform cur
  if mod = cur then
    pure (.ok (cur, .VerbUnchanged))
  else do
    match ← Memcacheds.Patch cur mod with
    | .error err => pure (.error err)
    | .ok out => pure (.ok (out, .VerbPatched))

/-- The parts of the Memcached `Controller` that `runMemcached` uses and whose code is
outside the sources: the informer cache lookup and the methods `terminate` and `create`. -/
structure Controller where
  GetByKey : String → Except Err (Option Memcached)
  terminate : Memcached → Cluster → Option Err × Cluster
  create : Memcached → Cluster → Option Err × Cluster

/-- The function `runMemcached` of `workqueue.go`. -/
def runMemcached (api : Api) (c : Controller) (key : String) : Op (Option Err) := do
  match c.GetByKey key with
  | .error err => return some err
  | .ok none => return none
  | .ok (some obj) =>
    let memcached := obj
    if memcached.ObjectMeta.DeletionTimestamp ≠ none then
      if HasFinalizer memcached.ObjectMeta api.GenericKey then
        match ← Op.call (.terminate memcached) (c.terminate memcached) with
        | some err => return some err
        | none =>
          match ← PatchMemcached memcached (fun in_ =>
              { in_ with ObjectMeta := RemoveFinalizer in_.ObjectMeta api.GenericKey }) with
          | .error err => return some err
          | .ok _ => return none
      else
        return none
    else
      match ← PatchMemcached memcached (fun in_ =>
          { in_ with ObjectMeta := AddFinalizer in_.ObjectMeta api.GenericKey }) with
      | .error err => return some err
      | .ok (memcached, _) =>
        match ← Op.call (.create memcached) (c.create memcached) with
        | some err =>
          Op.emit (.pushFailureEvent memcached err.Error)
          return some err
        | none => return none

/-! ## Redis: matching dormant databases -/

/-- Modelled from the spec: the server side of a DormantDatabase patch (see
`ObjectMeta.applyPatch`). -/
def DormantDatabase.applyPatch (cur mod srv : DormantDatabase) : DormantDatabase :=
  { ObjectMeta := ObjectMeta.applyPatch cur.ObjectMeta mod.ObjectMeta srv.ObjectMeta
    Spec :=
      { WipeOut := merge3 cur.Spec.WipeOut mod.Spec.WipeOut srv.Spec.WipeOut
        Origin := merge3 cur.Spec.Origin mod.Spec.Origin srv.Spec.Origin } }

/-- Modelled from the spec: `DormantDatabases(ns).Get(name)` of the store contract (§6): the
stored object, or not-found. -/
def DormantDatabases.Get (ns name : String) : Op (Except Err DormantDatabase) :=
  Op.request (.Get "DormantDatabase" ns name) fun s =>
    match s.DormantDatabases.find? (fun o => o.ObjectMeta.hasKey ns name) with
    | none => (.error .NotFound, s)
    | some o => (.ok o, s)

/-- Modelled from the spec: `DormantDatabases(ns).Patch(name, patch)` of the store contract
(§6), the patch being the difference from `cur` to `mod`. -/
def DormantDatabases.Patch (cur mod : DormantDatabase) : Op (Except Err DormantDatabase) :=
  Op.request (.PatchDormantDatabase cur mod) fun s =>
    let p := fun (o : DormantDatabase) =>
      o.ObjectMeta.hasKey cur.ObjectMeta.Namespace cur.ObjectMeta.Name
    match s.DormantDatabases.find? p with
    | none => (.error .NotFound, s)
    | some srv =>
      (.ok (DormantDatabase.applyPatch cur mod srv),
        { s with
          DormantDatabases := updateFirst p (DormantDatabase.applyPatch cur mod) s.DormantDatabases })

/-- Modelled from the spec: `DormantDatabases(ns).Delete(name, options)` of the store
contract (§6): the stored object is removed, or not-found is answered. -/
def DormantDatabases.Delete (ns name : String) : Op (Option Err) := do
  let r ← Op.request (.Delete "DormantDatabase" ns name) fun s =>
    match s.DormantDatabases.find? (fun o => o.ObjectMeta.hasKey ns name) with
    | none => (.error .NotFound, s)
    | some _ =>
      (.ok (),
        { s with
          DormantDatabases := removeFirst (fun o => o.ObjectMeta.hasKey ns name) s.DormantDatabases })
  match r with
  | .error err => return some err
  | .ok _ => return none

/-- Modelled from the spec: `DormantDatabases(ns).Create(obj)` of the store contract (§6):
the object is stored, unless one is already stored under its name. -/
def DormantDatabases.Create (obj : DormantDatabase) : Op (Except Err DormantDatabase) :=
  Op.request (.CreateDormantDatabase obj) fun s =>
    match s.DormantDatabases.find? (fun o =>
        o.ObjectMeta.hasKey obj.ObjectMeta.Namespace obj.ObjectMeta.Name) with
    | some _ => (.error .AlreadyExists, s)
    | none => (.ok obj, { s with DormantDatabases := s.DormantDatabases ++ [obj] })

/-- Modelled from the spec: `cs_util.PatchDormantDatabase` is not among the sources; it is the
patch half of create-or-patch (§4.3), as `PatchMemcached`. -/
def PatchDormantDatabase (cur : DormantDatabase) (transform : DormantDatabase → DormantDatabase) :
    Op (Except Err (DormantDatabase × VerbType)) :=
  let mod := transform cur
  if mod = cur then
    pure (.ok (cur, .VerbUnchanged))
  else do
    match ← DormantDatabases.Patch cur mod with
    | .error err => pure (.error err)
    | .ok out => pure (.ok (out, .VerbPatched))

/-- The function `deleteMatchingDormantDatabase` of `dormant_database.go`. -/
def deleteMatchingDormantDatabase (redis : Redis) : Op (Option Err) := do
  -- Check if DormantDatabase exists or not
  match ← DormantDatabases.Get redis.ObjectMeta.Namespace redis.ObjectMeta.Name with
  | .error err =>
    if !IsNotFound err then
      return some err
    return none
  | .ok ddb =>
    -- Set WipeOut to false
    match ← PatchDormantDatabase ddb (fun in_ =>
        { in_ with Spec := { in_.Spec with WipeOut := false } }) with
    | .error err => return some err
    | .ok _ =>
      -- Delete matching dormantDatabase
      match ← DormantDatabases.Delete redis.ObjectMeta.Namespace redis.ObjectMeta.Name with
      | some err =>
        if !IsNotFound err then
          return some err
        return none
      | none => return none

/-- The function `createDormantDatabase` of `dormant_database.go`. -/
def createDormantDatabase (api : Api) (redis : Redis) : Op (Except Err DormantDatabase) :=
  let dormantDb : DormantDatabase :=
    { ObjectMeta :=
        { Name := redis.ObjectMeta.Name
          Namespace := redis.ObjectMeta.Namespace
          Labels := [(api.LabelDatabaseKind, api.ResourceKindRedis)] }
      Spec :=
        { Origin :=
            { PartialObjectMeta :=
                { Name := redis.ObjectMeta.Name
                  Namespace := redis.ObjectMeta.Namespace
                  Labels := redis.ObjectMeta.Labels
                  Annotations := redis.ObjectMeta.Annotations
                  CreationTimestamp := redis.ObjectMeta.CreationTimestamp }
              Spec := { Redis := some redis.Spec } } } }
  DormantDatabases.Create dormantDb

/-! ## PgBouncer: the primary Service -/

/-- The constant `PgBouncerPortName` of `service.go`. -/
def PgBouncerPortName : String := "api"

/-- The constant `eventer.EventReasonSuccessful`. -/
def EventReasonSuccessful : String := "Successful"

/-- The text of a `kutil.VerbType`, as `Eventf` prints it. -/
def VerbType.text (vt : VerbType) : String :=
  match vt with
  | .VerbUnchanged => "unchanged"
  | .VerbCreated => "created"
  | .VerbPatched => "patched"

/-- Modelled from the spec: the server side of a Service patch (see `ObjectMeta.applyPatch`). -/
def Service.applyPatch (cur mod srv : Service) : Service :=
  { ObjectMeta := ObjectMeta.applyPatch cur.ObjectMeta mod.ObjectMeta srv.ObjectMeta
    Spec :=
      { Ports := merge3 cur.Spec.Ports mod.Spec.Ports srv.Spec.Ports
        Selector := merge3 cur.Spec.Selector mod.Spec.Selector srv.Spec.Selector
        ClusterIP := merge3 cur.Spec.ClusterIP mod.Spec.ClusterIP srv.Spec.ClusterIP
        ServiceType := merge3 cur.Spec.ServiceType mod.Spec.ServiceType srv.Spec.ServiceType
        ExternalIPs := merge3 cur.Spec.ExternalIPs mod.Spec.ExternalIPs srv.Spec.ExternalIPs
        LoadBalancerIP := merge3 cur.Spec.LoadBalancerIP mod.Spec.LoadBalancerIP srv.Spec.LoadBalancerIP
        LoadBalancerSourceRanges := merge3 cur.Spec.LoadBalancerSourceRanges
          mod.Spec.LoadBalancerSourceRanges srv.Spec.LoadBalancerSourceRanges
        ExternalTrafficPolicy := merge3 cur.Spec.ExternalTrafficPolicy
          mod.Spec.ExternalTrafficPolicy srv.Spec.ExternalTrafficPolicy
        HealthCheckNodePort := merge3 cur.Spec.HealthCheckNodePort mod.Spec.HealthCheckNodePort
          srv.Spec.HealthCheckNodePort } }

/-- Modelled from the spec: `Services(ns).Get(name)` of the store contract (§6): the stored
object, or not-found. -/
def Services.Get (ns name : String) : Op (Except Err Service) :=
  Op.request (.Get "Service" ns name) fun s =>
    match s.Services.find? (fun o => o.ObjectMeta.hasKey ns name) with
    | none => (.error .NotFound, s)
    | some o => (.ok o, s)

/-- Modelled from the spec: `Services(ns).Create(obj)` of the store contract (§6): the object
is stored, unless one is already stored under its name. -/
def Services.Create (obj : Service) : Op (Except Err Service) :=
  Op.request (.CreateService obj) fun s =>
    match s.Services.find? (fun o =>
        o.ObjectMeta.hasKey obj.ObjectMeta.Namespace obj.ObjectMeta.Name) with
    | some _ => (.error .AlreadyExists, s)
    | none => (.ok obj, { s with Services := s.Services ++ [obj] })

/-- Modelled from the spec: `Services(ns).Patch(name, patch)` of the store contract (§6), the
patch being the difference from `cur` to `mod`. -/
def Services.Patch (cur mod : Service) : Op (Except Err Service) :=
  Op.request (.PatchService cur mod) fun s =>
    let p := fun (o : Service) => o.ObjectMeta.hasKey cur.ObjectMeta.Namespace cur.ObjectMeta.Name
    match s.Services.find? p with
    | none => (.error .NotFound, s)
    | some srv =>
      (.ok (Service.applyPatch cur mod srv),
        { s with Services := updateFirst p (Service.applyPatch cur mod) s.Services })

/-- Modelled from the spec: `core_util.CreateOrPatchService` is not among the sources. It is
the convergence algorithm of §4.3: "fetch the object by identity; if absent, construct the
zero-value child, apply f, and create it; if present, apply f to a copy of the observed
object and compare; if no field of interest differs, no write occurs (unchanged outcome);
otherwise issue a patch containing only the changed fields". The transform is Go code and
may dereference a nil pointer (`none`). The result is the Go triple (object, verb, error). -/
def CreateOrPatchService (meta : ObjectMeta) (transform : Service → Option Service) :
    Op (Option Service × VerbType × Option Err) := do
  match ← Services.Get meta.Namespace meta.Name with
  | .error err =>
    if IsNotFound err then
      match transform { ObjectMeta := meta } with
      | none => Op.nilDereference
      | some obj =>
        match ← Services.Create obj with
        | .error err => return (none, .VerbCreated, some err)
        | .ok out => return (some out, .VerbCreated, none)
    else
      return (none, .VerbUnchanged, some err)
  | .ok cur =>
    match transform cur with
    | none => Op.nilDereference
    | some mod =>
      if mod = cur then
        return (some cur, .VerbUnchanged, none)
      else
        match ← Services.Patch cur mod with
        | .error err => return (none, .VerbPatched, some err)
        | .ok out => return (some out, .VerbPatched, none)

/-- Insert-or-update by name: the first entry of the list that has the name of `d` is
replaced by `d`; when there is none, `d` is appended. -/
def upsertPort (d : ServicePort) : List ServicePort → List ServicePort
  | [] => [d]
  | c :: cs => if c.Name = d.Name then d :: cs else c :: upsertPort d cs

/-- Modelled from the spec: `core_util.MergeServicePorts` is not among the sources. Port lists
"follow a name-keyed union: entries present in the desired template are upserted by name;
entries not mentioned by the template but already present are preserved" (§4.3). -/
def core_util.MergeServicePorts (cur desired : List ServicePort) : List ServicePort :=
  desired.foldl (fun acc d => upsertPort d acc) cur

/-- The `core.ServicePort` that a template port stands for. -/
def TemplatePort.toServicePort (d : TemplatePort) : ServicePort :=
  { Name := d.Name, Port := d.Port, NodePort := d.NodePort }

/-- Modelled from the spec: `ofst.MergeServicePorts` is not among the sources; it is the
name-keyed union of §4.3 with the ports of a service template as the desired entries. -/
def ofst.MergeServicePorts (cur : List ServicePort) (desired : List TemplatePort) :
    List ServicePort :=
  core_util.MergeServicePorts cur (desired.map TemplatePort.toServicePort)

/-- Modelled from the spec: `metav1.NewControllerRef` is not among the sources; it builds the
owner reference ("a back-reference on a child resource to the parent that created it"). -/
def NewControllerRef (api : Api) (pgbouncer : PgBouncer) : OwnerReference :=
  { APIVersion := api.Group ++ "/" ++ api.Version
    Kind := api.ResourceKindPgBouncer
    Name := pgbouncer.ObjectMeta.Name
    UID := pgbouncer.ObjectMeta.UID
    Controller := true
    BlockOwnerDeletion := true }

/-- Insert-or-update of an owner reference, keyed by kind and name. -/
def upsertOwner (owner : OwnerReference) : List OwnerReference → List OwnerReference
  | [] => [owner]
  | ref :: refs =>
    if ref.Kind = owner.Kind ∧ ref.Name = owner.Name then owner :: refs
    else ref :: upsertOwner owner refs

/-- Modelled from the spec: `core_util.EnsureOwnerReference` is not among the sources; it
stamps the owner reference on the child (§4.3), replacing a reference to the same owner. -/
def EnsureOwnerReference (meta : ObjectMeta) (owner : OwnerReference) : ObjectMeta :=
  { meta with OwnerReferences := upsertOwner owner meta.OwnerReferences }

/-- The function `upsertServicePort` of `service.go`; `none` is the nil pointer dereference
of `*pgbouncer.Spec.ConnectionPool.Port`. -/
def upsertServicePort (in_ : Service) (pgbouncer : PgBouncer) : Option (List ServicePort) :=
  match pgbouncer.Spec.ConnectionPool with
  | none =>
    some (ofst.MergeServicePorts
      (core_util.MergeServicePorts in_.Spec.Ports [])
      pgbouncer.Spec.ServiceTemplate.Spec.Ports)
  | some pool =>
    match pool.Port with
    | none => none
    | some port =>
      let defaultDBPort : ServicePort :=
        { Name := PgBouncerPortName
          Port := port
          TargetPort := .FromString PgBouncerPortName }
      some (ofst.MergeServicePorts
        (core_util.MergeServicePorts in_.Spec.Ports [defaultDBPort])
        pgbouncer.Spec.ServiceTemplate.Spec.Ports)

/-- The transform that `createOrPatchService` hands to `CreateOrPatchService`. -/
def serviceTransform (api : Api) (pgbouncer : PgBouncer) (in_ : Service) : Option Service :=
  let owner := NewControllerRef api pgbouncer
  let in_ := { in_ with ObjectMeta := EnsureOwnerReference in_.ObjectMeta owner }
  let in_ := { in_ with ObjectMeta := { in_.ObjectMeta with Labels := api.OffshootLabels pgbouncer } }
  let in_ := { in_ with Spec := { in_.Spec with Selector := api.OffshootSelectors pgbouncer } }
  match upsertServicePort in_ pgbouncer with
  | none => none
  | some ports =>
    let in_ := { in_ with Spec := { in_.Spec with Ports := ports } }
    let in_ :=
      if pgbouncer.Spec.ServiceTemplate.Spec.ClusterIP ≠ "" then
        { in_ with Spec := { in_.Spec with ClusterIP := pgbouncer.Spec.ServiceTemplate.Spec.ClusterIP } }
      else in_
    let in_ :=
      if pgbouncer.Spec.ServiceTemplate.Spec.ServiceType ≠ "" then
        { in_ with
          Spec := { in_.Spec with ServiceType := pgbouncer.Spec.ServiceTemplate.Spec.ServiceType } }
      else in_
    let in_ := { in_ with
      Spec := { in_.Spec with
        ExternalIPs := pgbouncer.Spec.ServiceTemplate.Spec.ExternalIPs
        LoadBalancerIP := pgbouncer.Spec.ServiceTemplate.Spec.LoadBalancerIP
        LoadBalancerSourceRanges := pgbouncer.Spec.ServiceTemplate.Spec.LoadBalancerSourceRanges
        ExternalTrafficPolicy := pgbouncer.Spec.ServiceTemplate.Spec.ExternalTrafficPolicy } }
    let in_ :=
      if pgbouncer.Spec.ServiceTemplate.Spec.HealthCheckNodePort > 0 then
        { in_ with
          Spec := { in_.Spec with
            HealthCheckNodePort := pgbouncer.Spec.ServiceTemplate.Spec.HealthCheckNodePort } }
      else in_
    some in_

/-- The function `createOrPatchService` of `service.go`: the Go pair (verb, error). -/
def createOrPatchService (api : Api) (pgbouncer : PgBouncer) : Op (VerbType × Option Err) := do
  let meta : ObjectMeta :=
    { Name := api.OffshootName pgbouncer
      Namespace := pgbouncer.ObjectMeta.Namespace }
  let (_, ok, err) ← CreateOrPatchService meta (serviceTransform api pgbouncer)
  return (ok, err)

/-- The function `checkService` of `service.go`. -/
def checkService (api : Api) (pgbouncer : PgBouncer) (name : String) : Op (Option Err) := do
  -- returns error if Service already exists
  match ← Services.Get pgbouncer.ObjectMeta.Namespace name with
  | .error err =>
    if IsNotFound err then
      return none
    return some err
  | .ok service =>
    if lookupLabel service.ObjectMeta.Labels api.LabelDatabaseKind ≠ api.ResourceKindPgBouncer ∨
        lookupLabel service.ObjectMeta.Labels api.LabelDatabaseName ≠ pgbouncer.ObjectMeta.Name then
      return some (.Other ("intended service \"" ++ pgbouncer.ObjectMeta.Namespace ++ "/" ++ name
        ++ "\" already exists"))
    return none

/-- The function `ensureService` of `service.go`. -/
def ensureService (api : Api) (pgbouncer : PgBouncer) : Op (VerbType × Option Err) := do
  -- Check if service name exists
  match ← checkService api pgbouncer (api.OffshootName pgbouncer) with
  | some err => return (.VerbUnchanged, some err)
  | none =>
    -- create database Service
    let (vt1, err) ← createOrPatchService api pgbouncer
    match err with
    | some err => return (.VerbUnchanged, some err)
    | none =>
      if vt1 ≠ .VerbUnchanged then
        Op.emit (.Eventf EventReasonSuccessful ("Successfully " ++ vt1.text ++ " Service"))
      return (vt1, none)

/-- The entry that a name stands for once the desired entries `desired` have been upserted
one after the other, `o` being the entry it stood for before: the last desired entry of that
name, if any. -/
def overwrite (desired : List ServicePort) (n : String) (o : Option ServicePort) :
    Option ServicePort :=
  desired.foldl (fun o d => if d.Name = n then some d else o) o

/-- The default ports that `upsertServicePort` merges first: none without a connection pool,
the port `api` with one; `none` is the nil pointer dereference of the port. -/
def defaultPorts (pgbouncer : PgBouncer) : Option (List ServicePort) :=
  match pgbouncer.Spec.ConnectionPool with
  | none => some []
  | some pool =>
    match pool.Port with
    | none => none
    | some port =>
      some [{ Name := PgBouncerPortName, Port := port, TargetPort := .FromString PgBouncerPortName }]

/-! ## PgBouncer: the admission mutator -/

/-- The constant `defaultListenPort` of `mutator.go`. -/
def defaultListenPort : Int := 5432

/-- The constant `DefaultListenAddress` of `mutator.go`. -/
def DefaultListenAddress : String := "*"

/-- The constant `defaultPoolMode` of `mutator.go`. -/
def defaultPoolMode : String := "session"

/-- Modelled from the spec: `PgBouncer.SetDefaults` is declared in the API package, which is
not among the sources. The defaults the spec names (§4.5: "replica count, pool mode,
listening port" and the exporter port) are all assigned by `setDefaultValues` and
`setMonitoringPort` themselves, so the method leaves the modelled fields as they are. -/
def PgBouncer.SetDefaults (pgbouncer : PgBouncer) : PgBouncer :=
  pgbouncer

/-- Modelled from the spec: `PgBouncer.GetMonitoringVendor` is declared in the API package,
which is not among the sources: the vendor of the agent of the monitoring spec ("selected by
the presence of a monitor spec field", §9), the empty string without a monitoring spec. -/
def PgBouncer.GetMonitoringVendor (api : Api) (pgbouncer : PgBouncer) : String :=
  match pgbouncer.Spec.Monitor with
  | some monitor => api.Vendor monitor.Agent
  | none => ""

/-- The function `setMonitoringPort` of `mutator.go`. -/
def setMonitoringPort (api : Api) (pgbouncer : PgBouncer) : PgBouncer :=
  match pgbouncer.Spec.Monitor with
  | none => pgbouncer
  | some monitor =>
    if pgbouncer.GetMonitoringVendor api = api.VendorPrometheus then
      let prometheus : PrometheusSpec :=
        match monitor.Prometheus with
        | none => {}
        | some prometheus => prometheus
      let prometheus :=
        if prometheus.Port = 0 then
          { prometheus with Port := api.PrometheusExporterPortNumber }
        else prometheus
      { pgbouncer with
        Spec := { pgbouncer.Spec with
          Monitor := some { monitor with Prometheus := some prometheus } } }
    else pgbouncer

/-- The function `setDefaultValues` of `mutator.go`. The Go function returns the object as a
`runtime.Object`, which is never nil. -/
def setDefaultValues (api : Api) (pgbouncer : PgBouncer) : PgBouncer :=
  let pgbouncer :=
    if pgbouncer.Spec.Replicas = none then
      { pgbouncer with Spec := { pgbouncer.Spec with Replicas := some 1 } }
    else pgbouncer
  let pgbouncer :=
    match pgbouncer.Spec.ConnectionPool with
    | none => pgbouncer
    | some pool =>
      let pool :=
        if pool.Port = none then { pool with Port := some defaultListenPort } else pool
      let pool :=
        if pool.PoolMode = "" then { pool with PoolMode := defaultPoolMode } else pool
      { pgbouncer with Spec := { pgbouncer.Spec with ConnectionPool := some pool } }
  let pgbouncer := pgbouncer.SetDefaults
  -- If monitoring spec is given without port, set default Listening port
  setMonitoringPort api pgbouncer

/-- The type `admission.Operation`. -/
inductive Operation where
  | Create
  | Update
  | Delete
  | Connect
  deriving DecidableEq, Repr

/-- The type `metav1.GroupVersionKind`. -/
structure GroupVersionKind where
  Group : String := ""
  Version : String := ""
  Kind : String := ""
  deriving DecidableEq, Repr

/-- The type `runtime.RawExtension`: the serialized object. -/
structure RawExtension where
  Raw : String := ""
  deriving DecidableEq, Repr

/-- The fields of `admission.AdmissionRequest` that `Admit` reads. -/
structure AdmissionRequest where
  Kind : GroupVersionKind := {}
  SubResource : String := ""
  Operation : Operator.Operation := .Create
  Object : RawExtension := {}
  deriving DecidableEq, Repr

/-- The status of a rejected response, named after the helper of the webhook runtime that
builds it: `hookapi.StatusUninitialized`, `hookapi.StatusBadRequest` or
`hookapi.StatusInternalServerError`. -/
inductive StatusReason where
  | Uninitialized
  | BadRequest
  | InternalServerError
  deriving DecidableEq, Repr

/-- The type `metav1.Status`, as far as the claims read it: which status it is and, when it
was built from an error, the text of the error. -/
structure Status where
  Reason : StatusReason
  Message : String := ""
  deriving DecidableEq, Repr

/-- The type `admission.PatchType`. -/
inductive PatchType where
  | PatchTypeJSONPatch
  deriving DecidableEq, Repr

/-- The type `admission.AdmissionResponse`. -/
structure AdmissionResponse where
  Allowed : Bool := false
  Result : Option Status := none
  Patch : Option String := none
  PatchType : Option Operator.PatchType := none
  deriving DecidableEq, Repr

/-- Modelled from the spec: `hookapi.StatusUninitialized` belongs to the webhook runtime, which
is not among the sources: a rejected response whose status says that the hook is not
initialized. -/
def StatusUninitialized : AdmissionResponse :=
  { Allowed := false
    Result := some { Reason := .Uninitialized } }

/-- Modelled from the spec: `hookapi.StatusBadRequest` belongs to the webhook runtime, which is
not among the sources: a rejected response with a bad-request status. -/
def StatusBadRequest (err : Err) : AdmissionResponse :=
  { Allowed := false
    Result := some { Reason := .BadRequest, Message := err.Error } }

/-- Modelled from the spec: `hookapi.StatusInternalServerError` belongs to the webhook runtime,
which is not among the sources: "a rejected admission response with an internal-error
status" (§7). -/
def StatusInternalServerError (err : Err) : AdmissionResponse :=
  { Allowed := false
    Result := some { Reason := .InternalServerError, Message := err.Error } }

/-- The `runtime.Object` that `meta_util.UnmarshalFromJSON` decodes: the payload says of
which kind it is, so it is a `*api.PgBouncer` or an object of another kind. -/
inductive RuntimeObject where
  | PgBouncer (obj : Operator.PgBouncer)
  | Other (kind : String)
  deriving DecidableEq, Repr

/-- The two functions of the package `meta_util` that `Admit` calls; their code (JSON
decoding and JSON patch creation) is outside the sources. -/
structure MetaUtil where
  UnmarshalFromJSON : String → Except Err RuntimeObject
  CreateJSONPatch : String → PgBouncer → Except Err String

/-- The state of a `PgBouncerMutator` that `Admit` reads (the clients are not used by it). -/
structure PgBouncerMutator where
  initialized : Bool := false
  deriving DecidableEq, Repr

/-- The method `Admit` of `mutator.go`. The result is `none` when the unchecked type assertion
`obj.(*api.PgBouncer)` panics, which it does when the payload decodes to another kind. -/
def Admit (api : Api) (meta_util : MetaUtil) (a : PgBouncerMutator) (req : AdmissionRequest) :
    Option AdmissionResponse :=
  let status : AdmissionResponse := {}
  -- N.B.: No Mutating for delete
  if (req.Operation ≠ .Create ∧ req.Operation ≠ .Update) ∨
      req.SubResource.length ≠ 0 ∨
      req.Kind.Group ≠ api.Group ∨
      req.Kind.Kind ≠ api.ResourceKindPgBouncer then
    some { status with Allowed := true }
  else if !a.initialized then
    some StatusUninitialized
  else
    match meta_util.UnmarshalFromJSON req.Object.Raw with
    | .error err => some (StatusBadRequest err)
    | .ok (.Other _) => none
    | .ok (.PgBouncer obj) =>
      let pbMod := setDefaultValues api obj
      match meta_util.CreateJSONPatch req.Object.Raw pbMod with
      | .error err => some (StatusInternalServerError err)
      | .ok patch =>
        some { status with
          Patch := some patch
          PatchType := some .PatchTypeJSONPatch
          Allowed := true }

/-- The first part of `setDefaultValues`: the replica count and the connection pool. -/
def fillSpecDefaults (pgbouncer : PgBouncer) : PgBouncer :=
  let pgbouncer :=
    if pgbouncer.Spec.Replicas = none then
      { pgbouncer with Spec := { pgbouncer.Spec with Replicas := some 1 } }
    else pgbouncer
  match pgbouncer.Spec.ConnectionPool with
  | none => pgbouncer
  | some pool =>
    let pool :=
      if pool.Port = none then { pool with Port := some defaultListenPort } else pool
    let pool :=
      if pool.PoolMode = "" then { pool with PoolMode := defaultPoolMode } else pool
    { pgbouncer with Spec := { pgbouncer.Spec with ConnectionPool := some pool } }

/-! ## Concrete inputs -/

/-- A Redis `demo/cache1` that is being created again. -/
def reactivatedRedis : Redis :=
  { ObjectMeta := { Name := "cache1", Namespace := "demo" } }

/-- A cluster that stores a dormant database `demo/cache1` on which wipe-out was requested. -/
def dormantCluster : Cluster :=
  { DormantDatabases :=
      [{ ObjectMeta := { Name := "cache1", Namespace := "demo" }, Spec := { WipeOut := true } }] }

/-- A PgBouncer `demo/pool` with a connection pool that listens on 5432. -/
def poolBouncer : PgBouncer :=
  { ObjectMeta := { Name := "pool", Namespace := "demo", UID := "u-1" }
    Spec := { Replicas := some 1, ConnectionPool := some { Port := some 5432, PoolMode := "session" } } }

/-- A cluster in which somebody else's Service already has the name `demo/pool`. -/
def foreignServiceCluster : Cluster :=
  { Services := [{ ObjectMeta := { Name := "pool", Namespace := "demo", Labels := [("app", "web")] } }] }

/-- An observed Service `demo/pool` to which a user added the port `extra`. -/
def observedService : Service :=
  { ObjectMeta := { Name := "pool", Namespace := "demo" }
    Spec := { Ports := [{ Name := "extra", Port := 7000 }] } }

/-- An observed Service `demo/pool` that lists two ports under the name `api`. -/
def repeatingService : Service :=
  { ObjectMeta := { Name := "pool", Namespace := "demo" }
    Spec := { Ports := [{ Name := "api", Port := 1111 }, { Name := "api", Port := 2222 }] } }

/-- A PgBouncer whose connection pool has no listening port yet (it was not defaulted). -/
def unportedBouncer : PgBouncer :=
  { ObjectMeta := { Name := "pool", Namespace := "demo", UID := "u-1" }
    Spec := { ConnectionPool := some {} } }

/-- A PgBouncer whose service template names a port `api` of its own. -/
def overridingBouncer : PgBouncer :=
  { ObjectMeta := { Name := "pool", Namespace := "demo", UID := "u-1" }
    Spec :=
      { ConnectionPool := some { Port := some 5432, PoolMode := "session" }
        ServiceTemplate := { Spec := { Ports := [{ Name := "api", Port := 6000 }] } } } }

/-- A PgBouncer whose service template uses the name `metrics` twice. -/
def repeatingBouncer : PgBouncer :=
  { ObjectMeta := { Name := "pool", Namespace := "demo", UID := "u-1" }
    Spec :=
      { ServiceTemplate :=
          { Spec := { Ports := [{ Name := "metrics", Port := 9100 }, { Name := "metrics", Port := 9200 }] } } } }

/-- A PgBouncer as a user submits it: no replica count, a connection pool without port and
pool mode. -/
def submittedBouncer : PgBouncer :=
  { ObjectMeta := { Name := "pool", Namespace := "demo" }
    Spec := { Version := "1.11.0", ConnectionPool := some {} } }

/-- A PgBouncer with a monitoring spec that names no agent and no port. -/
def agentlessBouncer : PgBouncer :=
  { ObjectMeta := { Name := "pool", Namespace := "demo" }
    Spec := { Monitor := some { Agent := "" } } }

/-- A PgBouncer monitored by the builtin Prometheus agent, without a port. -/
def monitoredBouncer : PgBouncer :=
  { ObjectMeta := { Name := "pool", Namespace := "demo" }
    Spec := { Monitor := some { Agent := "prometheus.io/builtin" } } }

/-- A stand-in for the JSON codec: the empty payload does not decode, the payload `redis`
decodes to an object of the kind Redis, every other payload decodes to `submittedBouncer`,
and a patch can always be written. -/
def demoCodec : MetaUtil where
  UnmarshalFromJSON := fun raw =>
    if raw = "" then .error (.Other "unexpected end of JSON input")
    else if raw = "redis" then .ok (.Other "Redis")
    else .ok (.PgBouncer submittedBouncer)
  CreateJSONPatch := fun _ _ => .ok "[]"

/-- A request to create a PgBouncer with the payload `raw`. -/
def createRequest (raw : String) : AdmissionRequest :=
  { Kind := { Group := "kubedb.com", Version := "v1alpha1", Kind := "PgBouncer" }
    Operation := .Create
    Object := { Raw := raw } }

/-- A request to delete a PgBouncer, with the payload `raw`. -/
def deleteRequest (raw : String) : AdmissionRequest :=
  { Kind := { Group := "kubedb.com", Version := "v1alpha1", Kind := "PgBouncer" }
    Operation := .Delete
    Object := { Raw := raw } }

/-- A Memcached `demo/cache` whose deletion has been requested and which carries the
finalizer of `kubedb`. -/
def deletingMemcached : Memcached :=
  { ObjectMeta :=
      { Name := "cache", Namespace := "demo", DeletionTimestamp := some 1,
        Finalizers := ["kubedb.com"] } }

/-- A controller whose cache holds `deletingMemcached` and whose cleanup fails. -/
def failingCleanup : Controller where
  GetByKey := fun _ => .ok (some deletingMemcached)
  terminate := fun _ s => (some (.Other "pods are still running"), s)
  create := fun _ s => (none, s)

/-- A Memcached `demo/cache` seen for the first time: no deletion timestamp, no finalizer. -/
def freshMemcached : Memcached :=
  { ObjectMeta := { Name := "cache", Namespace := "demo" } }

/-- A controller whose cache holds `freshMemcached` and whose methods succeed. -/
def freshController : Controller where
  GetByKey := fun _ => .ok (some freshMemcached)
  terminate := fun _ s => (none, s)
  create := fun _ s => (none, s)

/-- A controller whose cache holds `deletingMemcached` and whose cleanup succeeds. -/
def succeedingCleanup : Controller where
  GetByKey := fun _ => .ok (some deletingMemcached)
  terminate := fun _ s => (none, s)
  create := fun _ s => (none, s)

/-! ## Lemmas on finalizers and patches -/

theorem HasFinalizer_AddFinalizer (m : ObjectMeta) (finalizer : String) :
    HasFinalizer (AddFinalizer m finalizer) finalizer = true := by
  unfold AddFinalizer
  by_cases h : HasFinalizer m finalizer = true
  · simp [h]
  · rw [if_neg h]
    simp [HasFinalizer]

theorem RemoveFinalizer_ne (m : ObjectMeta) (finalizer : String)
    (h : HasFinalizer m finalizer = true) : RemoveFinalizer m finalizer ≠ m := by
  intro heq
  have hf : (RemoveFinalizer m finalizer).Finalizers = m.Finalizers := by rw [heq]
  simp only [RemoveFinalizer] at hf
  rw [List.filter_eq_self] at hf
  simp only [HasFinalizer, List.any_eq_true] at h
  obtain ⟨x, hx, hxe⟩ := h
  have := hf x hx
  simp_all

theorem Memcacheds.Patch_events (cur mod : Memcached) (s : Cluster) :
    ∃ o, Memcacheds.Patch cur mod s = some o ∧ o.events = [.PatchMemcached cur mod] := by
  unfold Memcacheds.Patch Op.request
  cases h : s.nextFault <;> simp

theorem Memcacheds.Patch_ok (cur mod out : Memcached) (s : Cluster) (o : Outcome (Except Err Memcached))
    (h : Memcacheds.Patch cur mod s = some o) (hv : o.val = .ok out) :
    ∃ srv, out = Memcached.applyPatch cur mod srv := by
  unfold Memcacheds.Patch Op.request at h
  cases hf : s.nextFault with
  | some err =>
    simp only [hf, Option.some.injEq] at h
    subst h
    simp at hv
  | none =>
    simp only [hf, Option.some.injEq] at h
    subst h
    simp only at hv
    split at hv
    · simp at hv
    · rename_i srv _
      simp only [Except.ok.injEq] at hv
      exact ⟨srv, hv.symm⟩

/-- What `PatchMemcached` does when the transform changes the object: one patch request, whose
answer is returned. -/
theorem PatchMemcached_changed (cur : Memcached) (transform : Memcached → Memcached)
    (s : Cluster) (h : transform cur ≠ cur) :
    ∃ o, Memcacheds.Patch cur (transform cur) s = some o ∧
      o.events = [.PatchMemcached cur (transform cur)] ∧
      PatchMemcached cur transform s =
        some ⟨o.val.map (fun out => (out, VerbType.VerbPatched)), o.cluster, o.events⟩ := by
  obtain ⟨o, ho, hev⟩ := Memcacheds.Patch_events cur (transform cur) s
  refine ⟨o, ho, hev, ?_⟩
  unfold PatchMemcached
  simp only [h, if_false, bind, Op.bind, ho]
  cases hv : o.val <;> simp [pure, Op.pure, Except.map]

/-- `PatchMemcached` always returns; it issues no event or exactly the patch request, and an
object it returns is the observed one (nothing to change) or the stored one after the patch. -/
theorem PatchMemcached_spec (cur : Memcached) (transform : Memcached → Memcached) (s : Cluster) :
    ∃ p, PatchMemcached cur transform s = some p ∧
      (p.events = [] ∨ p.events = [.PatchMemcached cur (transform cur)]) ∧
      (∀ out verb, p.val = .ok (out, verb) →
        (transform cur = cur ∧ out = cur) ∨
        (transform cur ≠ cur ∧ ∃ srv, out = Memcached.applyPatch cur (transform cur) srv)) := by
  by_cases h : transform cur = cur
  · refine ⟨⟨.ok (cur, .VerbUnchanged), s, []⟩, ?_, Or.inl rfl, ?_⟩
    · simp [PatchMemcached, h, pure, Op.pure]
    · intro out verb hv
      simp only [Except.ok.injEq, Prod.mk.injEq] at hv
      exact Or.inl ⟨h, hv.1.symm⟩
  · obtain ⟨o, ho, hev, hpatch⟩ := PatchMemcached_changed cur transform s h
    refine ⟨_, hpatch, Or.inr hev, ?_⟩
    intro out verb hv
    right
    refine ⟨h, ?_⟩
    cases hval : o.val with
    | error e => simp [hval, Except.map] at hv
    | ok out2 =>
      simp only [hval, Except.map, Except.ok.injEq, Prod.mk.injEq] at hv
      obtain ⟨srv, hsrv⟩ := Memcacheds.Patch_ok cur (transform cur) out2 s o ho hval
      exact ⟨srv, by rw [← hv.1, hsrv]⟩

/-- The object that the finalizer-adding patch returns carries the finalizer. -/
theorem HasFinalizer_of_patched (cur out : Memcached) (finalizer : String)
    (h : ((fun (in_ : Memcached) =>
          { in_ with ObjectMeta := AddFinalizer in_.ObjectMeta finalizer }) cur = cur ∧ out = cur) ∨
      ((fun (in_ : Memcached) =>
          { in_ with ObjectMeta := AddFinalizer in_.ObjectMeta finalizer }) cur ≠ cur ∧
        ∃ srv, out = Memcached.applyPatch cur
          ((fun (in_ : Memcached) =>
            { in_ with ObjectMeta := AddFinalizer in_.ObjectMeta finalizer }) cur) srv)) :
    HasFinalizer out.ObjectMeta finalizer = true := by
  rcases h with ⟨heq, hout⟩ | ⟨hne, srv, hout⟩
  · have h1 : AddFinalizer cur.ObjectMeta finalizer = cur.ObjectMeta :=
      congrArg Memcached.ObjectMeta heq
    rw [hout, ← h1]
    exact HasFinalizer_AddFinalizer _ _
  · have hno : HasFinalizer cur.ObjectMeta finalizer = false := by
      by_contra hc
      simp only [Bool.not_eq_false] at hc
      apply hne
      simp [AddFinalizer, hc]
    subst hout
    simp only [HasFinalizer, List.any_eq_false, beq_iff_eq, Bool.not_eq_true] at hno
    have hnot : finalizer ∉ cur.ObjectMeta.Finalizers := fun hmem => by
      simpa using hno finalizer hmem
    simp [Memcached.applyPatch, ObjectMeta.applyPatch, merge3, AddFinalizer, hnot, HasFinalizer]

/-! ## Lemmas on the store -/

theorem hasKey_iff (m : ObjectMeta) (ns name : String) :
    m.hasKey ns name = true ↔ m.Namespace = ns ∧ m.Name = name := by
  simp [ObjectMeta.hasKey]

theorem find?_updateFirst {α : Type} (p : α → Bool) (f : α → α) (l : List α) (x : α)
    (h : l.find? p = some x) (hp : p (f x) = true) :
    (updateFirst p f l).find? p = some (f x) := by
  induction l with
  | nil => simp at h
  | cons a as ih =>
    by_cases ha : p a = true
    · simp only [List.find?, ha, Option.some.injEq] at h
      subst h
      simp [updateFirst, ha, List.find?, hp]
    · simp only [Bool.not_eq_true] at ha
      simp only [List.find?, ha] at h
      simp [updateFirst, ha, List.find?, ih h]

theorem DormantDatabases.Delete_spec (ns name : String) (s : Cluster) :
    ∃ d, DormantDatabases.Delete ns name s = some d ∧
      d.events = [.Delete "DormantDatabase" ns name] := by
  unfold DormantDatabases.Delete Op.request
  simp only [bind, Op.bind]
  cases h : s.nextFault with
  | some err => simp [pure, Op.pure]
  | none =>
    cases hfind : s.advance.DormantDatabases.find? (fun o => o.ObjectMeta.hasKey ns name) <;>
      simp [pure, Op.pure, hfind]

/-- The patch that sets `WipeOut` to false on a stored record: it issues no delete, and when it
succeeds the record stored under the name has `WipeOut` false. -/
theorem PatchDormantDatabase_wipeOut (ddb : DormantDatabase) (s : Cluster)
    (hfound : s.DormantDatabases.find? (fun o =>
      o.ObjectMeta.hasKey ddb.ObjectMeta.Namespace ddb.ObjectMeta.Name) = some ddb) :
    ∃ p, PatchDormantDatabase ddb (fun in_ =>
        { in_ with Spec := { in_.Spec with WipeOut := false } }) s = some p ∧
      (p.events = [] ∨ p.events = [.PatchDormantDatabase ddb
        { ddb with Spec := { ddb.Spec with WipeOut := false } }]) ∧
      (∀ r, p.val = .ok r →
        ∃ d, p.cluster.DormantDatabases.find? (fun o =>
            o.ObjectMeta.hasKey ddb.ObjectMeta.Namespace ddb.ObjectMeta.Name) = some d ∧
          d.Spec.WipeOut = false) := by
  cases hw : ddb.Spec.WipeOut with
  | false =>
    have heq : ({ ddb with Spec := { ddb.Spec with WipeOut := false } } : DormantDatabase) = ddb := by
      rw [← hw]
    refine ⟨⟨.ok (ddb, .VerbUnchanged), s, []⟩, ?_, Or.inl rfl, ?_⟩
    · simp [PatchDormantDatabase, heq, pure, Op.pure]
    · intro r _
      exact ⟨ddb, hfound, hw⟩
  | true =>
    have hne : ({ ddb with Spec := { ddb.Spec with WipeOut := false } } : DormantDatabase) ≠ ddb := by
      intro heq
      have := congrArg (fun d => d.Spec.WipeOut) heq
      simp [hw] at this
    have hkey : (DormantDatabase.applyPatch ddb
        { ddb with Spec := { ddb.Spec with WipeOut := false } } ddb).ObjectMeta.hasKey
        ddb.ObjectMeta.Namespace ddb.ObjectMeta.Name = true := by
      simp [DormantDatabase.applyPatch, ObjectMeta.applyPatch, ObjectMeta.hasKey]
    unfold PatchDormantDatabase DormantDatabases.Patch Op.request
    simp only [hne, if_false, bind, Op.bind]
    cases hf : s.nextFault with
    | some err => simp [pure, Op.pure]
    | none =>
      have hfound2 : s.advance.DormantDatabases.find? (fun o =>
          o.ObjectMeta.hasKey ddb.ObjectMeta.Namespace ddb.ObjectMeta.Name) = some ddb := hfound
      simp only [hfound2, pure, Op.pure, List.append_nil]
      refine ⟨_, rfl, Or.inr rfl, ?_⟩
      intro r _
      refine ⟨_, find?_updateFirst _ _ _ ddb hfound hkey, ?_⟩
      simp [DormantDatabase.applyPatch, merge3, hw]

/-! ## Lemmas on port lists -/

theorem find?_cons_named (c : ServicePort) (cs : List ServicePort) (n : String) :
    (c :: cs).find? (fun c => c.Name == n) =
      if c.Name = n then some c else cs.find? (fun c => c.Name == n) := by
  by_cases h : c.Name = n
  · have hb : (c.Name == n) = true := by simp [h]
    rw [List.find?_cons, hb, if_pos h]
  · have hb : (c.Name == n) = false := by simp [h]
    rw [List.find?_cons, hb, if_neg h]

theorem find?_upsertPort (d : ServicePort) (n : String) (l : List ServicePort) :
    (upsertPort d l).find? (fun c => c.Name == n) =
      if d.Name = n then some d else l.find? (fun c => c.Name == n) := by
  induction l with
  | nil =>
    simp only [upsertPort, find?_cons_named, List.find?_nil]
  | cons c cs ih =>
    by_cases hc : c.Name = d.Name
    · simp only [upsertPort, hc, if_true, find?_cons_named]
      by_cases h : d.Name = n <;> simp only [h, if_true, if_false]
    · simp only [upsertPort, hc, if_false, find?_cons_named, ih]
      by_cases hcn : c.Name = n
      · have h : ¬ d.Name = n := fun hd => hc (hcn.trans hd.symm)
        simp only [hcn, h, if_true, if_false]
      · simp only [hcn, if_false]

theorem map_Name_upsertPort (d : ServicePort) (l : List ServicePort) :
    (upsertPort d l).map (fun c => c.Name) =
      if d.Name ∈ l.map (fun c => c.Name) then l.map (fun c => c.Name)
      else l.map (fun c => c.Name) ++ [d.Name] := by
  induction l with
  | nil => simp [upsertPort]
  | cons c cs ih =>
    by_cases hc : c.Name = d.Name
    · simp [upsertPort, hc]
    · have hdc : ¬ d.Name = c.Name := fun h => hc h.symm
      by_cases hm : d.Name ∈ cs.map (fun c => c.Name)
      · simp only [upsertPort, hc, if_false, List.map_cons, ih, hm, if_true, List.mem_cons,
          or_true]
      · simp only [upsertPort, hc, if_false, List.map_cons, ih, hm, List.mem_cons, hdc,
          or_self, List.cons_append]

theorem mem_upsertPort_of_ne (d c : ServicePort) (l : List ServicePort) (hc : c ∈ l)
    (hne : c.Name ≠ d.Name) : c ∈ upsertPort d l := by
  induction l with
  | nil => simp at hc
  | cons a as ih =>
    simp only [List.mem_cons] at hc
    by_cases ha : a.Name = d.Name
    · rcases hc with hc | hc
      · subst hc
        exact absurd ha hne
      · simp [upsertPort, ha, hc]
    · rcases hc with hc | hc
      · simp [upsertPort, ha, hc]
      · simp [upsertPort, ha, ih hc]

theorem nodup_upsertPort (d : ServicePort) (l : List ServicePort)
    (h : (l.map (fun c => c.Name)).Nodup) : ((upsertPort d l).map (fun c => c.Name)).Nodup := by
  rw [map_Name_upsertPort]
  by_cases hm : d.Name ∈ l.map (fun c => c.Name)
  · simp only [hm, if_true]
    exact h
  · simp only [hm, if_false]
    rw [List.nodup_append]
    refine ⟨h, List.nodup_singleton _, ?_⟩
    intro a ha hb
    simp only [List.mem_singleton] at hb
    subst hb
    exact hm ha

/-- Two port lists with the same sequence of names, all distinct, and the same entry under
every name are equal. -/
theorem ports_ext (l1 l2 : List ServicePort) (hnd : (l1.map (fun c => c.Name)).Nodup)
    (hnames : l1.map (fun c => c.Name) = l2.map (fun c => c.Name))
    (hfind : ∀ n, l1.find? (fun c => c.Name == n) = l2.find? (fun c => c.Name == n)) :
    l1 = l2 := by
  induction l1 generalizing l2 with
  | nil =>
    cases l2 with
    | nil => rfl
    | cons b bs => simp at hnames
  | cons a as ih =>
    cases l2 with
    | nil => simp at hnames
    | cons b bs =>
      simp only [List.map_cons, List.cons.injEq] at hnames
      obtain ⟨hab, htl⟩ := hnames
      simp only [List.map_cons, List.nodup_cons] at hnd
      obtain ⟨hna, hnd2⟩ := hnd
      have h1 := hfind a.Name
      simp only [find?_cons_named, hab, if_true, Option.some.injEq] at h1
      subst h1
      congr 1
      apply ih bs hnd2 htl
      intro n
      by_cases hn : a.Name = n
      · subst hn
        have e1 : as.find? (fun c => c.Name == a.Name) = none := by
          rw [List.find?_eq_none]
          intro x hx hxe
          apply hna
          simp only [beq_iff_eq] at hxe
          rw [← hxe]
          exact List.mem_map_of_mem (fun c => c.Name) hx
        have e2 : bs.find? (fun c => c.Name == a.Name) = none := by
          rw [List.find?_eq_none]
          intro x hx hxe
          apply hna
          simp only [beq_iff_eq] at hxe
          rw [htl, ← hxe]
          exact List.mem_map_of_mem (fun c => c.Name) hx
        rw [e1, e2]
      · have h2 := hfind n
        simpa only [find?_cons_named, hn, if_false] using h2

theorem find?_MergeServicePorts (cur desired : List ServicePort) (n : String) :
    (core_util.MergeServicePorts cur desired).find? (fun c => c.Name == n) =
      overwrite desired n (cur.find? (fun c => c.Name == n)) := by
  induction desired generalizing cur with
  | nil => rfl
  | cons d ds ih =>
    simp only [core_util.MergeServicePorts, List.foldl_cons, overwrite] at ih ⊢
    rw [ih, find?_upsertPort]

theorem nodup_MergeServicePorts (cur desired : List ServicePort)
    (h : (cur.map (fun c => c.Name)).Nodup) :
    ((core_util.MergeServicePorts cur desired).map (fun c => c.Name)).Nodup := by
  induction desired generalizing cur with
  | nil => exact h
  | cons d ds ih =>
    simp only [core_util.MergeServicePorts, List.foldl_cons] at ih ⊢
    exact ih _ (nodup_upsertPort d cur h)

theorem mem_MergeServicePorts_of_ne (cur desired : List ServicePort) (c : ServicePort)
    (hc : c ∈ cur) (hne : ∀ d ∈ desired, d.Name ≠ c.Name) :
    c ∈ core_util.MergeServicePorts cur desired := by
  induction desired generalizing cur with
  | nil => exact hc
  | cons d ds ih =>
    simp only [core_util.MergeServicePorts, List.foldl_cons] at ih ⊢
    apply ih
    · exact mem_upsertPort_of_ne d c cur hc (fun h => hne d (List.mem_cons_self _ _) h.symm)
    · intro e he
      exact hne e (List.mem_cons_of_mem _ he)

/-- Names already in the list stay where they are. -/
theorem map_Name_MergeServicePorts_of_subset (cur desired : List ServicePort)
    (h : ∀ d ∈ desired, d.Name ∈ cur.map (fun c => c.Name)) :
    (core_util.MergeServicePorts cur desired).map (fun c => c.Name) =
      cur.map (fun c => c.Name) := by
  induction desired generalizing cur with
  | nil => rfl
  | cons d ds ih =>
    simp only [core_util.MergeServicePorts, List.foldl_cons] at ih ⊢
    have hd := h d (List.mem_cons_self _ _)
    have hstep : (upsertPort d cur).map (fun c => c.Name) = cur.map (fun c => c.Name) := by
      rw [map_Name_upsertPort]
      simp only [hd, if_true]
    rw [ih, hstep]
    intro e he
    rw [hstep]
    exact h e (List.mem_cons_of_mem _ he)

/-- After the merge every name of the list and every desired name is in the list. -/
theorem mem_map_Name_MergeServicePorts (cur desired : List ServicePort) (n : String)
    (h : n ∈ cur.map (fun c => c.Name) ∨ n ∈ desired.map (fun c => c.Name)) :
    n ∈ (core_util.MergeServicePorts cur desired).map (fun c => c.Name) := by
  induction desired generalizing cur with
  | nil =>
    rcases h with h | h
    · exact h
    · simp at h
  | cons d ds ih =>
    simp only [core_util.MergeServicePorts, List.foldl_cons] at ih ⊢
    apply ih
    rw [map_Name_upsertPort]
    by_cases hm : d.Name ∈ cur.map (fun c => c.Name)
    · simp only [hm, if_true]
      rcases h with h | h
      · exact Or.inl h
      · simp only [List.map_cons, List.mem_cons] at h
        rcases h with h | h
        · left
          rw [h]
          exact hm
        · exact Or.inr h
    · simp only [hm, if_false, List.mem_append, List.mem_singleton]
      rcases h with h | h
      · exact Or.inl (Or.inl h)
      · simp only [List.map_cons, List.mem_cons] at h
        rcases h with h | h
        · exact Or.inl (Or.inr h)
        · exact Or.inr h

theorem overwrite_eq_or (desired : List ServicePort) (n : String) (o : Option ServicePort) :
    overwrite desired n o = (overwrite desired n none).or o := by
  induction desired generalizing o with
  | nil => simp [overwrite]
  | cons d ds ih =>
    simp only [overwrite, List.foldl_cons] at ih ⊢
    rw [ih (if d.Name = n then some d else o), ih (if d.Name = n then some d else none)]
    by_cases h : d.Name = n
    · simp only [h, if_true]
      cases List.foldl (fun o d => if d.Name = n then some d else o) none ds <;> simp
    · simp only [h, if_false]
      cases List.foldl (fun o d => if d.Name = n then some d else o) none ds <;> simp

theorem overwrite_of_not_mem (desired : List ServicePort) (n : String) (o : Option ServicePort)
    (h : ∀ d ∈ desired, d.Name ≠ n) : overwrite desired n o = o := by
  induction desired generalizing o with
  | nil => rfl
  | cons d ds ih =>
    simp only [overwrite, List.foldl_cons] at ih ⊢
    have hd : ¬ d.Name = n := h d (List.mem_cons_self _ _)
    simp only [hd, if_false]
    exact ih o (fun e he => h e (List.mem_cons_of_mem _ he))

theorem overwrite_last (l1 l2 : List ServicePort) (d : ServicePort) (o : Option ServicePort)
    (h : ∀ e ∈ l2, e.Name ≠ d.Name) : overwrite (l1 ++ d :: l2) d.Name o = some d := by
  simp only [overwrite, List.foldl_append, List.foldl_cons, if_true]
  exact overwrite_of_not_mem l2 d.Name (some d) h

theorem mem_upsertPort (d q : ServicePort) (l : List ServicePort)
    (h : q ∈ upsertPort d l) : q = d ∨ q ∈ l := by
  induction l with
  | nil =>
    simp only [upsertPort, List.mem_singleton] at h
    exact Or.inl h
  | cons c cs ih =>
    by_cases hc : c.Name = d.Name
    · simp only [upsertPort, hc, if_true, List.mem_cons] at h
      rcases h with h | h
      · exact Or.inl h
      · exact Or.inr (List.mem_cons_of_mem _ h)
    · simp only [upsertPort, hc, if_false, List.mem_cons] at h
      rcases h with h | h
      · exact Or.inr (by rw [h]; exact List.mem_cons_self _ _)
      · rcases ih h with h2 | h2
        · exact Or.inl h2
        · exact Or.inr (List.mem_cons_of_mem _ h2)

theorem mem_MergeServicePorts (cur desired : List ServicePort) (q : ServicePort)
    (h : q ∈ core_util.MergeServicePorts cur desired) : q ∈ cur ∨ q ∈ desired := by
  induction desired generalizing cur with
  | nil => exact Or.inl h
  | cons d ds ih =>
    simp only [core_util.MergeServicePorts, List.foldl_cons] at ih h
    rcases ih _ h with h2 | h2
    · rcases mem_upsertPort d q cur h2 with h3 | h3
      · exact Or.inr (by rw [h3]; exact List.mem_cons_self _ _)
      · exact Or.inl h3
    · exact Or.inr (List.mem_cons_of_mem _ h2)

/-- In a list with distinct names every port is the entry found under its name. -/
theorem find?_of_mem_nodup (l : List ServicePort) (q : ServicePort)
    (hnd : (l.map (fun c => c.Name)).Nodup) (hq : q ∈ l) :
    l.find? (fun c => c.Name == q.Name) = some q := by
  induction l with
  | nil => simp at hq
  | cons c cs ih =>
    simp only [List.map_cons, List.nodup_cons] at hnd
    rw [find?_cons_named]
    simp only [List.mem_cons] at hq
    rcases hq with hq | hq
    · rw [hq]
      simp
    · have hne : ¬ c.Name = q.Name := by
        intro h
        apply hnd.1
        rw [h]
        exact List.mem_map_of_mem (fun c => c.Name) hq
      rw [if_neg hne]
      exact ih hnd.2 hq

/-! ## Lemmas on create-or-patch of a Service -/

theorem nextFault_of_served (s : Cluster) (h : ∀ f ∈ s.faults, f = none) :
    s.nextFault = none := by
  unfold Cluster.nextFault
  cases hf : s.faults with
  | nil => rfl
  | cons f fs =>
    rw [hf] at h
    simp [h f (List.mem_cons_self _ _)]

theorem served_advance (s : Cluster) (h : ∀ f ∈ s.faults, f = none) :
    ∀ f ∈ s.advance.faults, f = none := by
  intro f hf
  exact h f (List.mem_of_mem_tail hf)

theorem CreateOrPatchService_absent (meta : ObjectMeta) (transform : Service → Option Service)
    (s : Cluster) (obj : Service)
    (h1 : s.nextFault = none) (h2 : s.advance.nextFault = none)
    (habsent : s.Services.find? (fun o => o.ObjectMeta.hasKey meta.Namespace meta.Name) = none)
    (ht : transform { ObjectMeta := meta } = some obj)
    (hns : obj.ObjectMeta.Namespace = meta.Namespace) (hname : obj.ObjectMeta.Name = meta.Name) :
    CreateOrPatchService meta transform s = some
      ⟨(some obj, .VerbCreated, none),
        { s.advance.advance with Services := s.Services ++ [obj] },
        [.Get "Service" meta.Namespace meta.Name, .CreateService obj]⟩ := by
  have ha1 : s.advance.Services.find? (fun o => o.ObjectMeta.hasKey meta.Namespace meta.Name)
      = none := habsent
  have ha2 : s.advance.advance.Services.find? (fun o =>
      o.ObjectMeta.hasKey obj.ObjectMeta.Namespace obj.ObjectMeta.Name) = none := by
    rw [hns, hname]
    exact habsent
  unfold CreateOrPatchService Services.Get Op.request
  simp only [bind, Op.bind, h1, ha1, IsNotFound, if_true, ht]
  simp only [Services.Create, Op.request, Op.bind, h2, ha2, pure, Op.pure]
  rfl

theorem CreateOrPatchService_unchanged (meta : ObjectMeta) (transform : Service → Option Service)
    (s : Cluster) (cur : Service)
    (h1 : s.nextFault = none)
    (hfound : s.Services.find? (fun o => o.ObjectMeta.hasKey meta.Namespace meta.Name) = some cur)
    (ht : transform cur = some cur) :
    CreateOrPatchService meta transform s = some
      ⟨(some cur, .VerbUnchanged, none), s.advance,
        [.Get "Service" meta.Namespace meta.Name]⟩ := by
  have ha1 : s.advance.Services.find? (fun o => o.ObjectMeta.hasKey meta.Namespace meta.Name)
      = some cur := hfound
  unfold CreateOrPatchService Services.Get Op.request
  simp only [bind, Op.bind, h1, ha1, ht, if_true, pure, Op.pure, List.append_nil]

theorem upsertOwner_idem (owner : OwnerReference) (refs : List OwnerReference) :
    upsertOwner owner (upsertOwner owner refs) = upsertOwner owner refs := by
  induction refs with
  | nil => simp [upsertOwner]
  | cons r rs ih =>
    by_cases h : r.Kind = owner.Kind ∧ r.Name = owner.Name
    · simp [upsertOwner, h]
    · simp [upsertOwner, h, ih]

/-- Merging the default ports and then the template ports a second time changes nothing. -/
theorem MergeServicePorts_twice (l dflt tmpl : List ServicePort)
    (hnd : (l.map (fun c => c.Name)).Nodup) :
    core_util.MergeServicePorts (core_util.MergeServicePorts
        (core_util.MergeServicePorts (core_util.MergeServicePorts l dflt) tmpl) dflt) tmpl =
      core_util.MergeServicePorts (core_util.MergeServicePorts l dflt) tmpl := by
  have hq := nodup_MergeServicePorts _ tmpl (nodup_MergeServicePorts l dflt hnd)
  have hn1 : (core_util.MergeServicePorts
      (core_util.MergeServicePorts (core_util.MergeServicePorts l dflt) tmpl) dflt).map
        (fun c => c.Name) =
      (core_util.MergeServicePorts (core_util.MergeServicePorts l dflt) tmpl).map
        (fun c => c.Name) := by
    apply map_Name_MergeServicePorts_of_subset
    intro d hd
    apply mem_map_Name_MergeServicePorts
    left
    apply mem_map_Name_MergeServicePorts
    right
    exact List.mem_map_of_mem (fun c => c.Name) hd
  have hn2 : (core_util.MergeServicePorts (core_util.MergeServicePorts
      (core_util.MergeServicePorts (core_util.MergeServicePorts l dflt) tmpl) dflt) tmpl).map
        (fun c => c.Name) =
      (core_util.MergeServicePorts (core_util.MergeServicePorts l dflt) tmpl).map
        (fun c => c.Name) := by
    rw [map_Name_MergeServicePorts_of_subset, hn1]
    intro d hd
    rw [hn1]
    apply mem_map_Name_MergeServicePorts
    right
    exact List.mem_map_of_mem (fun c => c.Name) hd
  apply ports_ext _ _ _ hn2
  · intro n
    simp only [find?_MergeServicePorts]
    rw [overwrite_eq_or tmpl, overwrite_eq_or dflt, overwrite_eq_or tmpl n (overwrite dflt n _),
      overwrite_eq_or dflt n (List.find? _ l)]
    cases overwrite tmpl n none <;> cases overwrite dflt n none <;> simp
  · rw [hn2]
    exact hq

theorem upsertServicePort_eq (in_ : Service) (pgbouncer : PgBouncer) :
    upsertServicePort in_ pgbouncer = (defaultPorts pgbouncer).map fun dflt =>
      core_util.MergeServicePorts (core_util.MergeServicePorts in_.Spec.Ports dflt)
        (pgbouncer.Spec.ServiceTemplate.Spec.Ports.map TemplatePort.toServicePort) := by
  unfold upsertServicePort defaultPorts ofst.MergeServicePorts
  cases pgbouncer.Spec.ConnectionPool with
  | none => rfl
  | some pool => cases hp : pool.Port <;> simp [hp]

theorem defaultPorts_isSome (pgbouncer : PgBouncer)
    (hport : ∀ pool, pgbouncer.Spec.ConnectionPool = some pool → pool.Port ≠ none) :
    ∃ dflt, defaultPorts pgbouncer = some dflt := by
  unfold defaultPorts
  cases hpool : pgbouncer.Spec.ConnectionPool with
  | none => exact ⟨_, rfl⟩
  | some pool =>
    cases hp : pool.Port with
    | none => exact absurd hp (hport pool hpool)
    | some port => simp [hp]

/-- The transform of `createOrPatchService` is defined when the port can be read, keeps the
name of the object, and applied to its own output returns it unchanged. -/
theorem serviceTransform_idem (api : Api) (pgbouncer : PgBouncer) (in_ : Service)
    (hport : ∀ pool, pgbouncer.Spec.ConnectionPool = some pool → pool.Port ≠ none)
    (hnd : (in_.Spec.Ports.map (fun c => c.Name)).Nodup) :
    ∃ obj, serviceTransform api pgbouncer in_ = some obj ∧
      serviceTransform api pgbouncer obj = some obj ∧
      obj.ObjectMeta.Namespace = in_.ObjectMeta.Namespace ∧
      obj.ObjectMeta.Name = in_.ObjectMeta.Name := by
  obtain ⟨dflt, hd⟩ := defaultPorts_isSome pgbouncer hport
  have htwice := MergeServicePorts_twice in_.Spec.Ports dflt
    (pgbouncer.Spec.ServiceTemplate.Spec.Ports.map TemplatePort.toServicePort) hnd
  unfold serviceTransform
  simp only [upsertServicePort_eq, hd, Option.map_some', EnsureOwnerReference]
  refine ⟨_, rfl, ?_, ?_, ?_⟩
  · by_cases h1 : pgbouncer.Spec.ServiceTemplate.Spec.ClusterIP = "" <;>
    by_cases h2 : pgbouncer.Spec.ServiceTemplate.Spec.ServiceType = "" <;>
    by_cases h3 : pgbouncer.Spec.ServiceTemplate.Spec.HealthCheckNodePort > 0 <;>
    simp [h1, h2, h3, htwice, upsertOwner_idem]
  · by_cases h1 : pgbouncer.Spec.ServiceTemplate.Spec.ClusterIP = "" <;>
    by_cases h2 : pgbouncer.Spec.ServiceTemplate.Spec.ServiceType = "" <;>
    by_cases h3 : pgbouncer.Spec.ServiceTemplate.Spec.HealthCheckNodePort > 0 <;>
    simp [h1, h2, h3]
  · by_cases h1 : pgbouncer.Spec.ServiceTemplate.Spec.ClusterIP = "" <;>
    by_cases h2 : pgbouncer.Spec.ServiceTemplate.Spec.ServiceType = "" <;>
    by_cases h3 : pgbouncer.Spec.ServiceTemplate.Spec.HealthCheckNodePort > 0 <;>
    simp [h1, h2, h3]

/-! ## Theorems on `runMemcached` -/

/-- C1: for a found object whose deletion timestamp is set and which carries the engine
finalizer, `runMemcached` returns; if `terminate` returns an error, that error is the result,
the cluster is as `terminate` left it and the only event is the call of `terminate` (no patch
is issued); a patch is among the events only when `terminate` returned success, and it is
then the finalizer-removing patch, issued after the call of `terminate`. -/
theorem runMemcached_cleanup_error_keeps_finalizer (api : Api) (c : Controller) (key : String)
    (s : Cluster) (memcached : Memcached)
    (hfound : c.GetByKey key = .ok (some memcached))
    (hdel : memcached.ObjectMeta.DeletionTimestamp ≠ none)
    (hfin : HasFinalizer memcached.ObjectMeta api.GenericKey = true) :
    ∃ o, runMemcached api c key s = some o ∧
      (∀ err, (c.terminate memcached s).1 = some err →
        o.val = some err ∧ o.cluster = (c.terminate memcached s).2 ∧
          o.events = [.terminate memcached]) ∧
      (∀ cur mod, Event.PatchMemcached cur mod ∈ o.events →
        (c.terminate memcached s).1 = none ∧ cur = memcached ∧
          mod = { memcached with
            ObjectMeta := RemoveFinalizer memcached.ObjectMeta api.GenericKey } ∧
          o.events = [.terminate memcached, .PatchMemcached cur mod]) := by
  have hne : (fun (in_ : Memcached) =>
      { in_ with ObjectMeta := RemoveFinalizer in_.ObjectMeta api.GenericKey }) memcached
      ≠ memcached := by
    intro heq
    exact RemoveFinalizer_ne _ _ hfin (congrArg Memcached.ObjectMeta heq)
  obtain ⟨p, hp, hpev, hpatch⟩ := PatchMemcached_changed memcached
    (fun in_ => { in_ with ObjectMeta := RemoveFinalizer in_.ObjectMeta api.GenericKey })
    (c.terminate memcached s).2 hne
  unfold runMemcached
  simp only [hfound, hdel, hfin, bind, Op.bind, Op.call, ne_eq, not_false_eq_true, if_true]
  cases ht : (c.terminate memcached s).1 with
  | some err =>
    simp [pure, Op.pure]
  | none =>
    simp only [Op.bind, hpatch]
    cases hv : p.val <;> simp [pure, Op.pure, Except.map, hpev]

/-- Witness of C1: `deletingMemcached` with a failing cleanup. -/
theorem runMemcached_cleanup_error_keeps_finalizer_witness :
    ∃ o, runMemcached kubedb failingCleanup "demo/cache" {} = some o ∧
      (∀ err, (failingCleanup.terminate deletingMemcached {}).1 = some err →
        o.val = some err ∧ o.cluster = (failingCleanup.terminate deletingMemcached {}).2 ∧
          o.events = [.terminate deletingMemcached]) ∧
      (∀ cur mod, Event.PatchMemcached cur mod ∈ o.events →
        (failingCleanup.terminate deletingMemcached {}).1 = none ∧ cur = deletingMemcached ∧
          mod = { deletingMemcached with
            ObjectMeta := RemoveFinalizer deletingMemcached.ObjectMeta kubedb.GenericKey } ∧
          o.events = [.terminate deletingMemcached, .PatchMemcached cur mod]) :=
  runMemcached_cleanup_error_keeps_finalizer kubedb failingCleanup "demo/cache" {}
    deletingMemcached rfl (by decide) (by decide)

/-- C2: for a found object with no deletion timestamp, `runMemcached` returns; if the
finalizer-adding patch returns an error, that error is the result and `create` is not called;
when `create` is called, the patch has succeeded before, and `create` is called on the object
the patch returned, which carries the finalizer. -/
theorem runMemcached_finalizer_before_create (api : Api) (c : Controller) (key : String)
    (s : Cluster) (memcached : Memcached)
    (hfound : c.GetByKey key = .ok (some memcached))
    (hdel : memcached.ObjectMeta.DeletionTimestamp = none) :
    ∃ o p, runMemcached api c key s = some o ∧
      PatchMemcached memcached (fun in_ =>
        { in_ with ObjectMeta := AddFinalizer in_.ObjectMeta api.GenericKey }) s = some p ∧
      (∀ m, Event.create m ∉ p.events) ∧
      (∀ err, p.val = .error err →
        o.val = some err ∧ o.cluster = p.cluster ∧ o.events = p.events) ∧
      (∀ m, Event.create m ∈ o.events →
        (∃ verb, p.val = .ok (m, verb)) ∧
          HasFinalizer m.ObjectMeta api.GenericKey = true ∧
          ∃ rest, o.events = p.events ++ Event.create m :: rest ∧
            ∀ m2, Event.create m2 ∉ rest) := by
  obtain ⟨p, hp, hpev, hpok⟩ := PatchMemcached_spec memcached
    (fun in_ => { in_ with ObjectMeta := AddFinalizer in_.ObjectMeta api.GenericKey }) s
  have hnc : ∀ m, Event.create m ∉ p.events := by
    intro m
    rcases hpev with h | h <;> simp [h]
  have hrun : runMemcached api c key s =
      match p.val with
      | .error err => some ⟨some err, p.cluster, p.events⟩
      | .ok (m, _) =>
        match (c.create m p.cluster).1 with
        | none => some ⟨none, (c.create m p.cluster).2, p.events ++ [Event.create m]⟩
        | some err => some ⟨some err, (c.create m p.cluster).2,
            p.events ++ [Event.create m, Event.pushFailureEvent m err.Error]⟩ := by
    unfold runMemcached
    simp only [hfound, hdel, bind, Op.bind, ne_eq, not_true_eq_false, if_false, hp]
    cases hv : p.val with
    | error err => simp [pure, Op.pure]
    | ok r =>
      obtain ⟨out, verb⟩ := r
      simp only [Op.bind, Op.call, Op.emit, pure, Op.pure]
      cases hc : (c.create out p.cluster).1 <;> simp [Op.bind, Op.emit, Op.pure]
  rw [hrun]
  cases hv : p.val with
  | error err =>
    refine ⟨_, p, rfl, hp, hnc, ?_, ?_⟩
    · intro err2 h2
      rw [hv] at h2
      simp only [Except.error.injEq] at h2
      simp [h2]
    · intro m hm
      exact absurd hm (hnc m)
  | ok r =>
    obtain ⟨out, verb⟩ := r
    have hfin := HasFinalizer_of_patched memcached out api.GenericKey (hpok out verb hv)
    cases hc : (c.create out p.cluster).1 with
    | none =>
      simp only [hc]
      refine ⟨_, p, rfl, hp, hnc, ?_, ?_⟩
      · intro err2 h2
        rw [hv] at h2
        simp at h2
      · intro m hm
        simp only [List.mem_append, List.mem_singleton] at hm
        rcases hm with hm | hm
        · exact absurd hm (hnc m)
        · simp only [Event.create.injEq] at hm
          subst hm
          exact ⟨⟨verb, hv⟩, hfin, [], rfl, by simp⟩
    | some err =>
      simp only [hc]
      refine ⟨_, p, rfl, hp, hnc, ?_, ?_⟩
      · intro err2 h2
        rw [hv] at h2
        simp at h2
      · intro m hm
        simp only [List.mem_append, List.mem_cons, List.mem_singleton] at hm
        rcases hm with hm | hm | hm | hm
        · exact absurd hm (hnc m)
        · simp only [Event.create.injEq] at hm
          subst hm
          exact ⟨⟨verb, hv⟩, hfin, [.pushFailureEvent m err.Error], rfl, by simp⟩
        · simp at hm
        · simp at hm

/-- Witness of C2: `freshMemcached`, stored in the cluster, with a controller that succeeds. -/
theorem runMemcached_finalizer_before_create_witness :
    ∃ o p, runMemcached kubedb freshController "demo/cache" { Memcacheds := [freshMemcached] }
        = some o ∧
      PatchMemcached freshMemcached (fun in_ =>
        { in_ with ObjectMeta := AddFinalizer in_.ObjectMeta kubedb.GenericKey })
        { Memcacheds := [freshMemcached] } = some p ∧
      (∀ m, Event.create m ∉ p.events) ∧
      (∀ err, p.val = .error err →
        o.val = some err ∧ o.cluster = p.cluster ∧ o.events = p.events) ∧
      (∀ m, Event.create m ∈ o.events →
        (∃ verb, p.val = .ok (m, verb)) ∧
          HasFinalizer m.ObjectMeta kubedb.GenericKey = true ∧
          ∃ rest, o.events = p.events ++ Event.create m :: rest ∧
            ∀ m2, Event.create m2 ∉ rest) :=
  runMemcached_finalizer_before_create kubedb freshController "demo/cache"
    { Memcacheds := [freshMemcached] } freshMemcached rfl rfl


/-! ## Theorems on `deleteMatchingDormantDatabase` -/

/-- C3: in a cluster that stores a DormantDatabase under the name of the Redis and serves the
lookup, `deleteMatchingDormantDatabase` returns; if the patch that sets `WipeOut` to false
fails, its error is the result and no delete is issued; a delete is issued only after that
patch has succeeded, and the record stored under the name at that moment has `WipeOut`
false. -/
theorem deleteMatchingDormantDatabase_wipeOut_false (redis : Redis) (s : Cluster)
    (ddb : DormantDatabase)
    (hserved : s.nextFault = none)
    (hfound : s.DormantDatabases.find? (fun o =>
      o.ObjectMeta.hasKey redis.ObjectMeta.Namespace redis.ObjectMeta.Name) = some ddb) :
    ∃ o p, deleteMatchingDormantDatabase redis s = some o ∧
      PatchDormantDatabase ddb (fun in_ =>
        { in_ with Spec := { in_.Spec with WipeOut := false } }) s.advance = some p ∧
      (∀ err, p.val = .error err →
        o.val = some err ∧ o.cluster = p.cluster ∧
          ∀ kind ns name, Event.Delete kind ns name ∉ o.events) ∧
      (∀ kind ns name, Event.Delete kind ns name ∈ o.events →
        (∃ r, p.val = .ok r) ∧
          (∃ d, p.cluster.DormantDatabases.find? (fun o =>
              o.ObjectMeta.hasKey redis.ObjectMeta.Namespace redis.ObjectMeta.Name) = some d ∧
            d.Spec.WipeOut = false) ∧
          o.events = Event.Get "DormantDatabase" redis.ObjectMeta.Namespace redis.ObjectMeta.Name
            :: p.events ++
            [Event.Delete "DormantDatabase" redis.ObjectMeta.Namespace redis.ObjectMeta.Name]) := by
  have hkey0 := List.find?_some hfound
  have hkey : ddb.ObjectMeta.Namespace = redis.ObjectMeta.Namespace ∧
      ddb.ObjectMeta.Name = redis.ObjectMeta.Name :=
    (hasKey_iff ddb.ObjectMeta _ _).1 hkey0
  have hfound2 : s.advance.DormantDatabases.find? (fun o =>
      o.ObjectMeta.hasKey ddb.ObjectMeta.Namespace ddb.ObjectMeta.Name) = some ddb := by
    rw [hkey.1, hkey.2]
    exact hfound
  obtain ⟨p, hp, hpev, hpok⟩ := PatchDormantDatabase_wipeOut ddb s.advance hfound2
  rw [hkey.1, hkey.2] at hpok
  obtain ⟨d, hd, hdev⟩ := DormantDatabases.Delete_spec redis.ObjectMeta.Namespace
    redis.ObjectMeta.Name p.cluster
  have hnd : ∀ kind ns name, Event.Delete kind ns name ∉ p.events := by
    intro kind ns name
    rcases hpev with h | h <;> simp [h]
  have hfound3 : s.advance.DormantDatabases.find? (fun o =>
      o.ObjectMeta.hasKey redis.ObjectMeta.Namespace redis.ObjectMeta.Name) = some ddb := hfound
  have hrun : deleteMatchingDormantDatabase redis s =
      match p.val with
      | .error err => some ⟨some err, p.cluster,
          Event.Get "DormantDatabase" redis.ObjectMeta.Namespace redis.ObjectMeta.Name :: p.events⟩
      | .ok _ => some ⟨(match d.val with
            | some err => if IsNotFound err then none else some err
            | none => none), d.cluster,
          Event.Get "DormantDatabase" redis.ObjectMeta.Namespace redis.ObjectMeta.Name
            :: p.events ++
            [Event.Delete "DormantDatabase" redis.ObjectMeta.Namespace redis.ObjectMeta.Name]⟩ := by
    unfold deleteMatchingDormantDatabase DormantDatabases.Get Op.request
    simp only [bind, Op.bind, hserved, hfound3, hp]
    cases hv : p.val with
    | error err => simp [pure, Op.pure]
    | ok r =>
      simp only [Op.bind, hd, hdev]
      cases hdv : d.val with
      | none => simp [pure, Op.pure]
      | some err => cases hnf : IsNotFound err <;> simp [pure, Op.pure, Op.bind, hnf]
  rw [hrun]
  cases hv : p.val with
  | error err =>
    refine ⟨_, p, rfl, hp, ?_, ?_⟩
    · intro err2 h2
      rw [hv] at h2
      simp only [Except.error.injEq] at h2
      subst h2
      refine ⟨rfl, rfl, ?_⟩
      intro kind ns name hm
      simp only [List.mem_cons] at hm
      rcases hm with hm | hm
      · simp at hm
      · exact hnd _ _ _ hm
    · intro kind ns name hm
      simp only [List.mem_cons] at hm
      rcases hm with hm | hm
      · simp at hm
      · exact absurd hm (hnd _ _ _)
  | ok r =>
    refine ⟨_, p, rfl, hp, ?_, ?_⟩
    · intro err2 h2
      rw [hv] at h2
      simp at h2
    · intro kind ns name _
      exact ⟨⟨r, hv⟩, hpok r hv, rfl⟩

/-- Witness of C3: reactivating `demo/cache1` while a dormant database of that name, marked
for wipe-out, is stored. -/
theorem deleteMatchingDormantDatabase_wipeOut_false_witness :
    ∃ o p, deleteMatchingDormantDatabase reactivatedRedis dormantCluster = some o ∧
      PatchDormantDatabase
        { ObjectMeta := { Name := "cache1", Namespace := "demo" }, Spec := { WipeOut := true } }
        (fun in_ => { in_ with Spec := { in_.Spec with WipeOut := false } })
        dormantCluster.advance = some p ∧
      (∀ err, p.val = .error err →
        o.val = some err ∧ o.cluster = p.cluster ∧
          ∀ kind ns name, Event.Delete kind ns name ∉ o.events) ∧
      (∀ kind ns name, Event.Delete kind ns name ∈ o.events →
        (∃ r, p.val = .ok r) ∧
          (∃ d, p.cluster.DormantDatabases.find? (fun o =>
              o.ObjectMeta.hasKey reactivatedRedis.ObjectMeta.Namespace
                reactivatedRedis.ObjectMeta.Name) = some d ∧
            d.Spec.WipeOut = false) ∧
          o.events = Event.Get "DormantDatabase" reactivatedRedis.ObjectMeta.Namespace
              reactivatedRedis.ObjectMeta.Name
            :: p.events ++
            [Event.Delete "DormantDatabase" reactivatedRedis.ObjectMeta.Namespace
              reactivatedRedis.ObjectMeta.Name]) :=
  deleteMatchingDormantDatabase_wipeOut_false reactivatedRedis dormantCluster
    { ObjectMeta := { Name := "cache1", Namespace := "demo" }, Spec := { WipeOut := true } }
    (by decide) (by decide)

/-! ## Theorems on the Service of a PgBouncer -/

/-- C4: in a cluster that serves the lookup of the Service named after the PgBouncer: if a
Service of that name is stored and its labels do not mark it as belonging to this PgBouncer,
`ensureService` returns the naming-conflict error with the verb `unchanged`, the only event
is the lookup (no create, no patch) and the stored objects are untouched; if no Service of
that name is stored, or the stored one carries both labels, `checkService` returns no
error. -/
theorem ensureService_naming_conflict (api : Api) (pgbouncer : PgBouncer) (s : Cluster)
    (hserved : s.nextFault = none) :
    (∀ service, s.Services.find? (fun o =>
          o.ObjectMeta.hasKey pgbouncer.ObjectMeta.Namespace (api.OffshootName pgbouncer))
          = some service →
        (lookupLabel service.ObjectMeta.Labels api.LabelDatabaseKind ≠ api.ResourceKindPgBouncer ∨
          lookupLabel service.ObjectMeta.Labels api.LabelDatabaseName ≠ pgbouncer.ObjectMeta.Name) →
        ensureService api pgbouncer s = some
          ⟨(.VerbUnchanged, some (.Other ("intended service \"" ++ pgbouncer.ObjectMeta.Namespace
              ++ "/" ++ api.OffshootName pgbouncer ++ "\" already exists"))),
            s.advance,
            [.Get "Service" pgbouncer.ObjectMeta.Namespace (api.OffshootName pgbouncer)]⟩) ∧
    (s.Services.find? (fun o =>
          o.ObjectMeta.hasKey pgbouncer.ObjectMeta.Namespace (api.OffshootName pgbouncer)) = none →
        checkService api pgbouncer (api.OffshootName pgbouncer) s = some
          ⟨none, s.advance,
            [.Get "Service" pgbouncer.ObjectMeta.Namespace (api.OffshootName pgbouncer)]⟩) ∧
    (∀ service, s.Services.find? (fun o =>
          o.ObjectMeta.hasKey pgbouncer.ObjectMeta.Namespace (api.OffshootName pgbouncer))
          = some service →
        lookupLabel service.ObjectMeta.Labels api.LabelDatabaseKind = api.ResourceKindPgBouncer →
        lookupLabel service.ObjectMeta.Labels api.LabelDatabaseName = pgbouncer.ObjectMeta.Name →
        checkService api pgbouncer (api.OffshootName pgbouncer) s = some
          ⟨none, s.advance,
            [.Get "Service" pgbouncer.ObjectMeta.Namespace (api.OffshootName pgbouncer)]⟩) := by
  refine ⟨?_, ?_, ?_⟩
  · intro service hfound hlabels
    have hfound2 : s.advance.Services.find? (fun o =>
        o.ObjectMeta.hasKey pgbouncer.ObjectMeta.Namespace (api.OffshootName pgbouncer))
        = some service := hfound
    unfold ensureService checkService Services.Get Op.request
    simp only [bind, Op.bind, hserved, hfound2, hlabels, if_true, pure, Op.pure, List.append_nil]
  · intro hfound
    have hfound2 : s.advance.Services.find? (fun o =>
        o.ObjectMeta.hasKey pgbouncer.ObjectMeta.Namespace (api.OffshootName pgbouncer))
        = none := hfound
    unfold checkService Services.Get Op.request
    simp [bind, Op.bind, hserved, hfound2, IsNotFound, pure, Op.pure]
  · intro service hfound hkind hname
    have hfound2 : s.advance.Services.find? (fun o =>
        o.ObjectMeta.hasKey pgbouncer.ObjectMeta.Namespace (api.OffshootName pgbouncer))
        = some service := hfound
    unfold checkService Services.Get Op.request
    simp [bind, Op.bind, hserved, hfound2, hkind, hname, pure, Op.pure]

/-- Witness of C4: `poolBouncer` in a cluster where a foreign Service has its name. -/
theorem ensureService_naming_conflict_witness :
    ensureService kubedb poolBouncer foreignServiceCluster = some
      ⟨(.VerbUnchanged, some (.Other "intended service \"demo/pool\" already exists")),
        foreignServiceCluster.advance, [.Get "Service" "demo" "pool"]⟩ :=
  (ensureService_naming_conflict kubedb poolBouncer foreignServiceCluster (by decide)).1
    { ObjectMeta := { Name := "pool", Namespace := "demo", Labels := [("app", "web")] } }
    (by decide) (by decide)

/-- C6, as stated, fails: with a connection pool that has no port `upsertServicePort` is
undefined; when the service template names a port `api`, the default port with the number of
the connection pool (5432) is not in the result; when the template uses a name twice, the
first of the two port numbers (9100) is not in the result; and when the observed Service
lists two ports under one name, so does the result, which is then not keyed by name. -/
theorem upsertServicePort_union_counterexample :
    upsertServicePort observedService unportedBouncer = none ∧
    (∃ ports, upsertServicePort observedService overridingBouncer = some ports ∧
      ∀ q ∈ ports, ¬ (q.Name = "api" ∧ q.Port = 5432)) ∧
    (∃ ports, upsertServicePort observedService repeatingBouncer = some ports ∧
      ∀ q ∈ ports, ¬ (q.Name = "metrics" ∧ q.Port = 9100)) ∧
    (∃ ports, upsertServicePort repeatingService poolBouncer = some ports ∧
      ¬ (ports.map (fun c => c.Name)).Nodup) := by
  refine ⟨by decide, ⟨_, rfl, by decide⟩, ⟨_, rfl, by decide⟩, ⟨_, rfl, by decide⟩⟩

/-- C6, amended: when the connection pool is absent or has a port, `upsertServicePort`
returns a union of the observed and the desired ports, keyed by name: for every name of the
service template the first entry of the result under that name is the last template port of
that name; when a connection pool is configured and the template does not name `api`, the
first entry under `api` is the default port with `Port = *ConnectionPool.Port`; every
observed port whose name is neither `api` (with a pool) nor a template name is in the result
unchanged; every port of the result is an observed port, the default port or a template
port; and when the names of the observed ports are distinct, so are the names of the result,
each port of the result being the one entry under its name. -/
theorem upsertServicePort_union (in_ : Service) (pgbouncer : PgBouncer)
    (hport : ∀ pool, pgbouncer.Spec.ConnectionPool = some pool → pool.Port ≠ none) :
    ∃ ports, upsertServicePort in_ pgbouncer = some ports ∧
      (∀ l1 d l2, pgbouncer.Spec.ServiceTemplate.Spec.Ports = l1 ++ d :: l2 →
        (∀ e ∈ l2, e.Name ≠ d.Name) →
        ports.find? (fun c => c.Name == d.Name) = some d.toServicePort) ∧
      (∀ pool port, pgbouncer.Spec.ConnectionPool = some pool → pool.Port = some port →
        (∀ e ∈ pgbouncer.Spec.ServiceTemplate.Spec.Ports, e.Name ≠ PgBouncerPortName) →
        ports.find? (fun c => c.Name == PgBouncerPortName) = some
          { Name := PgBouncerPortName, Port := port, TargetPort := .FromString PgBouncerPortName }) ∧
      (∀ c ∈ in_.Spec.Ports,
        (pgbouncer.Spec.ConnectionPool ≠ none → c.Name ≠ PgBouncerPortName) →
        (∀ e ∈ pgbouncer.Spec.ServiceTemplate.Spec.Ports, e.Name ≠ c.Name) →
        c ∈ ports) ∧
      (∀ q ∈ ports,
        q ∈ in_.Spec.Ports ∨
        (∃ pool port, pgbouncer.Spec.ConnectionPool = some pool ∧ pool.Port = some port ∧
          q = { Name := PgBouncerPortName, Port := port,
                TargetPort := .FromString PgBouncerPortName }) ∨
        (∃ t ∈ pgbouncer.Spec.ServiceTemplate.Spec.Ports, q = t.toServicePort)) ∧
      ((in_.Spec.Ports.map (fun c => c.Name)).Nodup →
        (ports.map (fun c => c.Name)).Nodup ∧
        ∀ q ∈ ports, ports.find? (fun c => c.Name == q.Name) = some q) := by
  have htemplate : ∀ (cur : List ServicePort) (l1 : List TemplatePort) (d : TemplatePort)
      (l2 : List TemplatePort),
      pgbouncer.Spec.ServiceTemplate.Spec.Ports = l1 ++ d :: l2 →
      (∀ e ∈ l2, e.Name ≠ d.Name) →
      (ofst.MergeServicePorts cur pgbouncer.Spec.ServiceTemplate.Spec.Ports).find?
        (fun c => c.Name == d.Name) = some d.toServicePort := by
    intro cur l1 d l2 hsplit hlast
    rw [ofst.MergeServicePorts, find?_MergeServicePorts, hsplit, List.map_append, List.map_cons]
    apply overwrite_last _ _ d.toServicePort
    intro e he
    obtain ⟨t, ht, hte⟩ := List.mem_map.1 he
    rw [← hte]
    exact hlast t ht
  have hkeep : ∀ (cur : List ServicePort) (c : ServicePort), c ∈ cur →
      (∀ e ∈ pgbouncer.Spec.ServiceTemplate.Spec.Ports, e.Name ≠ c.Name) →
      c ∈ ofst.MergeServicePorts cur pgbouncer.Spec.ServiceTemplate.Spec.Ports := by
    intro cur c hc hne
    apply mem_MergeServicePorts_of_ne _ _ c hc
    intro e he
    obtain ⟨t, ht, hte⟩ := List.mem_map.1 he
    rw [← hte]
    exact hne t ht
  have hfrom : ∀ (dflt : List ServicePort) (q : ServicePort),
      q ∈ ofst.MergeServicePorts (core_util.MergeServicePorts in_.Spec.Ports dflt)
        pgbouncer.Spec.ServiceTemplate.Spec.Ports →
      q ∈ in_.Spec.Ports ∨ q ∈ dflt ∨
        ∃ t ∈ pgbouncer.Spec.ServiceTemplate.Spec.Ports, q = t.toServicePort := by
    intro dflt q hq
    rcases mem_MergeServicePorts _ _ q hq with h | h
    · rcases mem_MergeServicePorts _ _ q h with h2 | h2
      · exact Or.inl h2
      · exact Or.inr (Or.inl h2)
    · obtain ⟨t, ht, hte⟩ := List.mem_map.1 h
      exact Or.inr (Or.inr ⟨t, ht, hte.symm⟩)
  have hdistinct : ∀ (dflt : List ServicePort),
      (in_.Spec.Ports.map (fun c => c.Name)).Nodup →
      ((ofst.MergeServicePorts (core_util.MergeServicePorts in_.Spec.Ports dflt)
        pgbouncer.Spec.ServiceTemplate.Spec.Ports).map (fun c => c.Name)).Nodup ∧
      ∀ q ∈ ofst.MergeServicePorts (core_util.MergeServicePorts in_.Spec.Ports dflt)
          pgbouncer.Spec.ServiceTemplate.Spec.Ports,
        (ofst.MergeServicePorts (core_util.MergeServicePorts in_.Spec.Ports dflt)
          pgbouncer.Spec.ServiceTemplate.Spec.Ports).find? (fun c => c.Name == q.Name)
          = some q := by
    intro dflt hnd
    have h := nodup_MergeServicePorts _
      (pgbouncer.Spec.ServiceTemplate.Spec.Ports.map TemplatePort.toServicePort)
      (nodup_MergeServicePorts in_.Spec.Ports dflt hnd)
    exact ⟨h, fun q hq => find?_of_mem_nodup _ q h hq⟩
  cases hpool : pgbouncer.Spec.ConnectionPool with
  | none =>
    have hval : upsertServicePort in_ pgbouncer = some (ofst.MergeServicePorts
        (core_util.MergeServicePorts in_.Spec.Ports [])
        pgbouncer.Spec.ServiceTemplate.Spec.Ports) := by
      simp only [upsertServicePort, hpool]
    refine ⟨_, hval, ?_, ?_, ?_, ?_, hdistinct []⟩
    · intro l1 d l2 hsplit hlast
      exact htemplate _ l1 d l2 hsplit hlast
    · intro pool port h
      simp at h
    · intro c hc _ hne
      exact hkeep _ c hc hne
    · intro q hq
      rcases hfrom [] q hq with h | h | h
      · exact Or.inl h
      · simp at h
      · exact Or.inr (Or.inr h)
  | some pool =>
    cases hp : pool.Port with
    | none => exact absurd hp (hport pool hpool)
    | some port =>
      have hval : upsertServicePort in_ pgbouncer = some (ofst.MergeServicePorts
          (core_util.MergeServicePorts in_.Spec.Ports
            [{ Name := PgBouncerPortName, Port := port,
               TargetPort := .FromString PgBouncerPortName }])
          pgbouncer.Spec.ServiceTemplate.Spec.Ports) := by
        simp only [upsertServicePort, hpool, hp]
      refine ⟨_, hval, ?_, ?_, ?_, ?_, hdistinct _⟩
      · intro l1 d l2 hsplit hlast
        exact htemplate _ l1 d l2 hsplit hlast
      · intro pool2 port2 h2 hp2 hne
        simp only [Option.some.injEq] at h2
        subst h2
        rw [hp] at hp2
        simp only [Option.some.injEq] at hp2
        subst hp2
        rw [ofst.MergeServicePorts, find?_MergeServicePorts, overwrite_of_not_mem]
        · simp only [core_util.MergeServicePorts, List.foldl_cons, List.foldl_nil,
            find?_upsertPort, if_true]
        · intro e he
          obtain ⟨t, ht, hte⟩ := List.mem_map.1 he
          rw [← hte]
          exact hne t ht
      · intro c hc hapi hne
        apply hkeep _ c _ hne
        apply mem_MergeServicePorts_of_ne _ _ c hc
        intro e he
        simp only [List.mem_singleton] at he
        subst he
        exact fun h => hapi (by simp) h.symm
      · intro q hq
        rcases hfrom _ q hq with h | h | h
        · exact Or.inl h
        · simp only [List.mem_singleton] at h
          exact Or.inr (Or.inl ⟨pool, port, rfl, hp, h⟩)
        · exact Or.inr (Or.inr h)

/-- Witness of C6 (the scenario of the spec): the observed ports are `extra:7000`, the
desired port is `api:5432`; the result holds both and `extra` is untouched. -/
theorem upsertServicePort_union_witness :
    upsertServicePort observedService poolBouncer = some
      [{ Name := "extra", Port := 7000 },
       { Name := "api", Port := 5432, TargetPort := .FromString "api" }] ∧
    ∃ ports, upsertServicePort observedService poolBouncer = some ports ∧
      (∀ l1 d l2, poolBouncer.Spec.ServiceTemplate.Spec.Ports = l1 ++ d :: l2 →
        (∀ e ∈ l2, e.Name ≠ d.Name) →
        ports.find? (fun c => c.Name == d.Name) = some d.toServicePort) ∧
      (∀ pool port, poolBouncer.Spec.ConnectionPool = some pool → pool.Port = some port →
        (∀ e ∈ poolBouncer.Spec.ServiceTemplate.Spec.Ports, e.Name ≠ PgBouncerPortName) →
        ports.find? (fun c => c.Name == PgBouncerPortName) = some
          { Name := PgBouncerPortName, Port := port, TargetPort := .FromString PgBouncerPortName }) ∧
      (∀ c ∈ observedService.Spec.Ports,
        (poolBouncer.Spec.ConnectionPool ≠ none → c.Name ≠ PgBouncerPortName) →
        (∀ e ∈ poolBouncer.Spec.ServiceTemplate.Spec.Ports, e.Name ≠ c.Name) →
        c ∈ ports) ∧
      (∀ q ∈ ports,
        q ∈ observedService.Spec.Ports ∨
        (∃ pool port, poolBouncer.Spec.ConnectionPool = some pool ∧ pool.Port = some port ∧
          q = { Name := PgBouncerPortName, Port := port,
                TargetPort := .FromString PgBouncerPortName }) ∨
        (∃ t ∈ poolBouncer.Spec.ServiceTemplate.Spec.Ports, q = t.toServicePort)) ∧
      ((observedService.Spec.Ports.map (fun c => c.Name)).Nodup →
        (ports.map (fun c => c.Name)).Nodup ∧
        ∀ q ∈ ports, ports.find? (fun c => c.Name == q.Name) = some q) :=
  ⟨by decide, upsertServicePort_union observedService poolBouncer (by decide)⟩

/-- C5, as stated, fails: for a PgBouncer whose connection pool has no port, the first
`createOrPatchService` in an empty cluster dereferences the nil port instead of reporting
`created`. -/
theorem createOrPatchService_twice_counterexample :
    createOrPatchService kubedb unportedBouncer {} = none := by
  rfl

/-- C5, amended: for a PgBouncer whose connection pool is absent or has a port, in a cluster
that serves its requests and stores no Service of the target name, `createOrPatchService`
reports `created` and stores the transformed object; run again in the cluster it left, it
reports `unchanged` after a single lookup and the stored Services are the same: the transform
returns its own output unchanged. -/
theorem createOrPatchService_twice (api : Api) (pgbouncer : PgBouncer) (s : Cluster)
    (hport : ∀ pool, pgbouncer.Spec.ConnectionPool = some pool → pool.Port ≠ none)
    (hserved : ∀ f ∈ s.faults, f = none)
    (habsent : s.Services.find? (fun o =>
      o.ObjectMeta.hasKey pgbouncer.ObjectMeta.Namespace (api.OffshootName pgbouncer)) = none) :
    ∃ o1 o2 obj, createOrPatchService api pgbouncer s = some o1 ∧
      o1.val = (.VerbCreated, none) ∧
      createOrPatchService api pgbouncer o1.cluster = some o2 ∧
      o2.val = (.VerbUnchanged, none) ∧
      o1.cluster.Services = s.Services ++ [obj] ∧
      o2.cluster.Services = o1.cluster.Services ∧
      serviceTransform api pgbouncer obj = some obj ∧
      o1.events = [.Get "Service" pgbouncer.ObjectMeta.Namespace (api.OffshootName pgbouncer),
        .CreateService obj] ∧
      o2.events = [.Get "Service" pgbouncer.ObjectMeta.Namespace (api.OffshootName pgbouncer)] := by
  obtain ⟨obj, hobj, hidem, hns, hname⟩ := serviceTransform_idem api pgbouncer
    { ObjectMeta := { Name := api.OffshootName pgbouncer,
                      Namespace := pgbouncer.ObjectMeta.Namespace } } hport (by simp)
  have h1 := nextFault_of_served s hserved
  have hs1 := served_advance s hserved
  have h2 := nextFault_of_served s.advance hs1
  have hs2 := served_advance s.advance hs1
  have hfirst := CreateOrPatchService_absent
    { Name := api.OffshootName pgbouncer, Namespace := pgbouncer.ObjectMeta.Namespace }
    (serviceTransform api pgbouncer) s obj h1 h2 habsent hobj hns hname
  have h3 : ({ s.advance.advance with Services := s.Services ++ [obj] } : Cluster).nextFault
      = none := nextFault_of_served _ hs2
  have hkey : obj.ObjectMeta.hasKey pgbouncer.ObjectMeta.Namespace (api.OffshootName pgbouncer)
      = true := by
    rw [hasKey_iff]
    exact ⟨hns, hname⟩
  have hfound : ({ s.advance.advance with Services := s.Services ++ [obj] } : Cluster).Services.find?
      (fun o => o.ObjectMeta.hasKey pgbouncer.ObjectMeta.Namespace (api.OffshootName pgbouncer))
      = some obj := by
    simp only [List.find?_append, habsent, List.find?_cons, hkey, Option.none_or]
  have hsecond := CreateOrPatchService_unchanged
    { Name := api.OffshootName pgbouncer, Namespace := pgbouncer.ObjectMeta.Namespace }
    (serviceTransform api pgbouncer) _ obj h3 hfound hidem
  refine ⟨⟨(.VerbCreated, none), { s.advance.advance with Services := s.Services ++ [obj] },
      [.Get "Service" pgbouncer.ObjectMeta.Namespace (api.OffshootName pgbouncer),
        .CreateService obj]⟩,
    ⟨(.VerbUnchanged, none),
      ({ s.advance.advance with Services := s.Services ++ [obj] } : Cluster).advance,
      [.Get "Service" pgbouncer.ObjectMeta.Namespace (api.OffshootName pgbouncer)]⟩,
    obj, ?_, ?_, ?_, ?_, ?_, ?_, hidem, ?_, ?_⟩
  · unfold createOrPatchService
    simp only [bind, Op.bind, hfirst, pure, Op.pure, List.append_nil]
  · rfl
  · unfold createOrPatchService
    simp only [bind, Op.bind, hsecond, pure, Op.pure, List.append_nil]
  · rfl
  · rfl
  · rfl
  · rfl
  · rfl

/-- Witness of C5: `poolBouncer` in the empty cluster. -/
theorem createOrPatchService_twice_witness :
    ∃ o1 o2 obj, createOrPatchService kubedb poolBouncer {} = some o1 ∧
      o1.val = (.VerbCreated, none) ∧
      createOrPatchService kubedb poolBouncer o1.cluster = some o2 ∧
      o2.val = (.VerbUnchanged, none) ∧
      o1.cluster.Services = ({} : Cluster).Services ++ [obj] ∧
      o2.cluster.Services = o1.cluster.Services ∧
      serviceTransform kubedb poolBouncer obj = some obj ∧
      o1.events = [.Get "Service" poolBouncer.ObjectMeta.Namespace (kubedb.OffshootName poolBouncer),
        .CreateService obj] ∧
      o2.events = [.Get "Service" poolBouncer.ObjectMeta.Namespace
        (kubedb.OffshootName poolBouncer)] :=
  createOrPatchService_twice kubedb poolBouncer {} (by decide) (by decide) (by decide)

/-! ## Theorems on the admission mutator -/

theorem setDefaultValues_eq (api : Api) (x : PgBouncer) :
    setDefaultValues api x = setMonitoringPort api (fillSpecDefaults x) := rfl

theorem fillSpecDefaults_idem (x : PgBouncer) :
    fillSpecDefaults (fillSpecDefaults x) = fillSpecDefaults x := by
  obtain ⟨meta, ver, rep, tmpl, pool, mon⟩ := x
  cases rep <;> cases pool with
  | none => simp [fillSpecDefaults]
  | some pool =>
    obtain ⟨port, mode, mx⟩ := pool
    cases port <;> by_cases hm : mode = "" <;>
      simp [fillSpecDefaults, hm, defaultPoolMode]

theorem setMonitoringPort_idem (api : Api) (x : PgBouncer) :
    setMonitoringPort api (setMonitoringPort api x) = setMonitoringPort api x := by
  obtain ⟨meta, ver, rep, tmpl, pool, mon⟩ := x
  cases mon with
  | none => simp [setMonitoringPort]
  | some monitor =>
    obtain ⟨agent, prom⟩ := monitor
    by_cases hv : api.Vendor agent = api.VendorPrometheus
    · cases prom with
      | none =>
        by_cases h0 : api.PrometheusExporterPortNumber = 0 <;>
          simp [setMonitoringPort, PgBouncer.GetMonitoringVendor, hv, h0]
      | some pr =>
        by_cases hp : pr.Port = 0 <;> by_cases h0 : api.PrometheusExporterPortNumber = 0 <;>
          simp [setMonitoringPort, PgBouncer.GetMonitoringVendor, hv, h0, hp]
    · simp [setMonitoringPort, PgBouncer.GetMonitoringVendor, hv]

theorem fillSpecDefaults_setMonitoringPort (api : Api) (x : PgBouncer) :
    fillSpecDefaults (setMonitoringPort api x) = setMonitoringPort api (fillSpecDefaults x) := by
  obtain ⟨meta, ver, rep, tmpl, pool, mon⟩ := x
  cases mon with
  | none =>
    cases rep <;> cases pool <;>
      simp [setMonitoringPort, fillSpecDefaults]
  | some monitor =>
    by_cases hv : api.Vendor monitor.Agent = api.VendorPrometheus <;>
    cases rep <;> cases pool <;>
      simp [setMonitoringPort, fillSpecDefaults, PgBouncer.GetMonitoringVendor, hv]

/-- C7: the admission defaulting is idempotent: for every PgBouncer `x`,
`setDefaultValues (setDefaultValues x) = setDefaultValues x`. -/
theorem setDefaultValues_idempotent (api : Api) (x : PgBouncer) :
    setDefaultValues api (setDefaultValues api x) = setDefaultValues api x := by
  rw [setDefaultValues_eq, setDefaultValues_eq, fillSpecDefaults_setMonitoringPort,
    fillSpecDefaults_idem, setMonitoringPort_idem]

/-- C8: for a PgBouncer whose `Replicas` is unset and whose connection pool has no port and
an empty pool mode, `setDefaultValues` yields `Replicas = 1`, `ConnectionPool.Port = 5432`
and `ConnectionPool.PoolMode = "session"`. -/
theorem setDefaultValues_fills_defaults (api : Api) (x : PgBouncer) (pool : ConnectionPoolConfig)
    (hreplicas : x.Spec.Replicas = none)
    (hpool : x.Spec.ConnectionPool = some pool)
    (hport : pool.Port = none)
    (hmode : pool.PoolMode = "") :
    (setDefaultValues api x).Spec.Replicas = some 1 ∧
      (setDefaultValues api x).Spec.ConnectionPool =
        some { pool with Port := some 5432, PoolMode := "session" } := by
  obtain ⟨meta, ver, rep, tmpl, cp, mon⟩ := x
  simp only at hreplicas hpool
  subst hreplicas hpool
  cases mon with
  | none =>
    simp [setDefaultValues, PgBouncer.SetDefaults, setMonitoringPort, hport, hmode,
      defaultListenPort, defaultPoolMode]
  | some monitor =>
    by_cases hv : api.Vendor monitor.Agent = api.VendorPrometheus <;>
      simp [setDefaultValues, PgBouncer.SetDefaults, setMonitoringPort,
        PgBouncer.GetMonitoringVendor, hv, hport, hmode, defaultListenPort, defaultPoolMode]

/-- Witness of C8: `submittedBouncer`. -/
theorem setDefaultValues_fills_defaults_witness :
    (setDefaultValues kubedb submittedBouncer).Spec.Replicas = some 1 ∧
      (setDefaultValues kubedb submittedBouncer).Spec.ConnectionPool =
        some { ({} : ConnectionPoolConfig) with Port := some 5432, PoolMode := "session" } :=
  setDefaultValues_fills_defaults kubedb submittedBouncer {} rfl rfl rfl rfl

/-- C9, as stated, fails: `agentlessBouncer` has a monitoring spec without a port, but its
agent is not of the Prometheus vendor, and `setDefaultValues` leaves the monitoring spec
without any Prometheus port. -/
theorem setDefaultValues_monitoring_port_counterexample :
    agentlessBouncer.Spec.Monitor = some { Agent := "", Prometheus := none } ∧
    (setDefaultValues kubedb agentlessBouncer).Spec.Monitor =
      some { Agent := "", Prometheus := none } := by
  decide

/-- C9, amended: for a PgBouncer with a monitoring spec whose agent is of the Prometheus
vendor and which has no explicit port (no Prometheus spec, or port 0), `setDefaultValues`
yields the exporter port `api.PrometheusExporterPortNumber`; an explicitly set non-zero port
is left as given; when the agent is not of the Prometheus vendor the monitoring spec is left
as it is. -/
theorem setDefaultValues_monitoring_port (api : Api) (x : PgBouncer) (monitor : AgentSpec)
    (hmonitor : x.Spec.Monitor = some monitor) :
    (api.Vendor monitor.Agent = api.VendorPrometheus →
      (monitor.Prometheus = none ∨ ∃ pr, monitor.Prometheus = some pr ∧ pr.Port = 0) →
      ∃ pr, (setDefaultValues api x).Spec.Monitor = some { monitor with Prometheus := some pr } ∧
        pr.Port = api.PrometheusExporterPortNumber) ∧
    (∀ pr, monitor.Prometheus = some pr → pr.Port ≠ 0 →
      (setDefaultValues api x).Spec.Monitor = some monitor) ∧
    (api.Vendor monitor.Agent ≠ api.VendorPrometheus →
      (setDefaultValues api x).Spec.Monitor = some monitor) := by
  have hfill : (fillSpecDefaults x).Spec.Monitor = some monitor := by
    obtain ⟨meta, ver, rep, tmpl, cp, mon⟩ := x
    simp only at hmonitor
    subst hmonitor
    cases rep <;> cases cp <;> simp [fillSpecDefaults]
  rw [setDefaultValues_eq]
  generalize fillSpecDefaults x = y at hfill
  obtain ⟨meta, ver, rep, tmpl, cp, mon⟩ := y
  simp only at hfill
  subst hfill
  obtain ⟨agent, prom⟩ := monitor
  refine ⟨?_, ?_, ?_⟩
  · intro hv hnoport
    simp only at hv
    rcases hnoport with h | ⟨pr, h, h0⟩
    · simp only at h
      subst h
      exact ⟨{ Port := api.PrometheusExporterPortNumber },
        by simp [setMonitoringPort, PgBouncer.GetMonitoringVendor, hv], rfl⟩
    · simp only at h
      subst h
      exact ⟨{ pr with Port := api.PrometheusExporterPortNumber },
        by simp [setMonitoringPort, PgBouncer.GetMonitoringVendor, hv, h0], rfl⟩
  · intro pr h hne
    simp only at h
    subst h
    by_cases hv : api.Vendor agent = api.VendorPrometheus <;>
      simp [setMonitoringPort, PgBouncer.GetMonitoringVendor, hv, hne]
  · intro hv
    simp only at hv
    simp [setMonitoringPort, PgBouncer.GetMonitoringVendor, hv]

/-- Witness of C9: `monitoredBouncer`, whose agent is the builtin Prometheus agent. -/
theorem setDefaultValues_monitoring_port_witness :
    (setDefaultValues kubedb monitoredBouncer).Spec.Monitor =
      some { Agent := "prometheus.io/builtin", Prometheus := some { Port := 56790 } } ∧
    ∃ pr, (setDefaultValues kubedb monitoredBouncer).Spec.Monitor =
        some { ({ Agent := "prometheus.io/builtin" } : AgentSpec) with Prometheus := some pr } ∧
      pr.Port = kubedb.PrometheusExporterPortNumber :=
  ⟨by decide,
    (setDefaultValues_monitoring_port kubedb monitoredBouncer { Agent := "prometheus.io/builtin" }
      rfl).1 (by decide) (Or.inl rfl)⟩

/-- C10, as stated, fails: a mutator that is not initialized rejects a create request although
neither decoding nor patch creation fails (the response is that of
`hookapi.StatusUninitialized`); a payload that does not decode is answered with
`hookapi.StatusBadRequest`, whose status is the bad-request one, not the internal-error one;
and for a payload that decodes to an object of another kind `Admit` gives no response at all:
the type assertion panics. -/
theorem Admit_rejects_counterexample :
    (Admit kubedb demoCodec { initialized := false } (createRequest "x") =
        some StatusUninitialized ∧
      StatusUninitialized.Allowed = false ∧
      demoCodec.UnmarshalFromJSON "x" = .ok (.PgBouncer submittedBouncer) ∧
      demoCodec.CreateJSONPatch "x" (setDefaultValues kubedb submittedBouncer) = .ok "[]") ∧
    (Admit kubedb demoCodec { initialized := true } (createRequest "") =
        some (StatusBadRequest (.Other "unexpected end of JSON input")) ∧
      (StatusBadRequest (.Other "unexpected end of JSON input")).Allowed = false ∧
      (StatusBadRequest (.Other "unexpected end of JSON input")).Result.map (fun st => st.Reason)
        = some .BadRequest) ∧
    Admit kubedb demoCodec { initialized := true } (createRequest "redis") = none := by
  refine ⟨⟨by decide, rfl, rfl, rfl⟩, ⟨by decide, rfl, rfl⟩, by decide⟩

/-- C10, amended: for a request whose payload does not decode to an object of another kind,
`Admit` answers, and it answers `allowed = true` (defaulting never rejects) except, for a
request that it mutates, in three cases: the mutator is not initialized (the response of
`StatusUninitialized`); the payload does not decode (that of `StatusBadRequest`); the patch
cannot be created (that of `StatusInternalServerError`, the internal-error status). These
three responses have `allowed = false`. -/
theorem Admit_rejects_only (api : Api) (meta_util : MetaUtil) (a : PgBouncerMutator)
    (req : AdmissionRequest)
    (hkind : ∀ kind, meta_util.UnmarshalFromJSON req.Object.Raw ≠ .ok (.Other kind)) :
    (∃ response, Admit api meta_util a req = some response ∧
      (response.Allowed = true ∨
        (¬ ((req.Operation ≠ .Create ∧ req.Operation ≠ .Update) ∨
            req.SubResource.length ≠ 0 ∨
            req.Kind.Group ≠ api.Group ∨
            req.Kind.Kind ≠ api.ResourceKindPgBouncer) ∧
          ((a.initialized = false ∧ response = StatusUninitialized) ∨
            (a.initialized = true ∧
              ∃ err, meta_util.UnmarshalFromJSON req.Object.Raw = .error err ∧
                response = StatusBadRequest err) ∨
            (a.initialized = true ∧
              ∃ obj err, meta_util.UnmarshalFromJSON req.Object.Raw = .ok (.PgBouncer obj) ∧
                meta_util.CreateJSONPatch req.Object.Raw (setDefaultValues api obj) = .error err ∧
                response = StatusInternalServerError err))))) ∧
    StatusUninitialized.Allowed = false ∧
    (∀ err, (StatusBadRequest err).Allowed = false ∧
      (StatusBadRequest err).Result.map (fun st => st.Reason) = some .BadRequest) ∧
    (∀ err, (StatusInternalServerError err).Allowed = false ∧
      (StatusInternalServerError err).Result.map (fun st => st.Reason)
        = some .InternalServerError) := by
  refine ⟨?_, rfl, fun _ => ⟨rfl, rfl⟩, fun _ => ⟨rfl, rfl⟩⟩
  unfold Admit
  split_ifs with hskip hinit
  · exact ⟨_, rfl, Or.inl rfl⟩
  · simp only [Bool.not_eq_true'] at hinit
    exact ⟨_, rfl, Or.inr ⟨hskip, Or.inl ⟨hinit, rfl⟩⟩⟩
  · have hinit2 : a.initialized = true := by simpa using hinit
    cases hu : meta_util.UnmarshalFromJSON req.Object.Raw with
    | error err =>
      exact ⟨_, rfl, Or.inr ⟨hskip, Or.inr (Or.inl ⟨hinit2, err, rfl, rfl⟩)⟩⟩
    | ok decoded =>
      cases decoded with
      | Other kind => exact absurd hu (hkind kind)
      | PgBouncer obj =>
        cases hpatch : meta_util.CreateJSONPatch req.Object.Raw (setDefaultValues api obj) with
        | error err =>
          refine ⟨StatusInternalServerError err, ?_,
            Or.inr ⟨hskip, Or.inr (Or.inr ⟨hinit2, obj, err, rfl, hpatch, rfl⟩)⟩⟩
          simp only [hpatch]
        | ok patch =>
          refine ⟨{ Allowed := true, Patch := some patch,
                    PatchType := some .PatchTypeJSONPatch }, ?_, Or.inl rfl⟩
          simp only [hpatch]

/-- Witness of C10: a create request with a payload that decodes to a PgBouncer, sent to an
initialized mutator, is allowed and answered with the patch. -/
theorem Admit_rejects_only_witness :
    Admit kubedb demoCodec { initialized := true } (createRequest "x") =
      some { Allowed := true, Patch := some "[]", PatchType := some .PatchTypeJSONPatch } ∧
    ∃ response, Admit kubedb demoCodec { initialized := true } (createRequest "x")
        = some response ∧
      (response.Allowed = true ∨
        (¬ (((createRequest "x").Operation ≠ .Create ∧ (createRequest "x").Operation ≠ .Update) ∨
            (createRequest "x").SubResource.length ≠ 0 ∨
            (createRequest "x").Kind.Group ≠ kubedb.Group ∨
            (createRequest "x").Kind.Kind ≠ kubedb.ResourceKindPgBouncer) ∧
          (((({ initialized := true } : PgBouncerMutator)).initialized = false ∧
              response = StatusUninitialized) ∨
            ((({ initialized := true } : PgBouncerMutator)).initialized = true ∧
              ∃ err, demoCodec.UnmarshalFromJSON (createRequest "x").Object.Raw = .error err ∧
                response = StatusBadRequest err) ∨
            ((({ initialized := true } : PgBouncerMutator)).initialized = true ∧
              ∃ obj err, demoCodec.UnmarshalFromJSON (createRequest "x").Object.Raw
                  = .ok (.PgBouncer obj) ∧
                demoCodec.CreateJSONPatch (createRequest "x").Object.Raw
                  (setDefaultValues kubedb obj) = .error err ∧
                response = StatusInternalServerError err)))) :=
  ⟨by decide,
    (Admit_rejects_only kubedb demoCodec { initialized := true } (createRequest "x")
      (by intro kind h; simp [demoCodec, createRequest] at h)).1⟩

/-- C11: for a request that is not a create or update, or that targets a sub-resource, or
whose group or kind is not that of PgBouncer, `Admit` returns `allowed = true` with no
status, no patch and no patch type, whatever the payload, the codec and the state of the
mutator (initialized or not) are: the payload is not read. -/
theorem Admit_passes_through (api : Api) (req : AdmissionRequest)
    (hskip : (req.Operation ≠ .Create ∧ req.Operation ≠ .Update) ∨
      req.SubResource.length ≠ 0 ∨
      req.Kind.Group ≠ api.Group ∨
      req.Kind.Kind ≠ api.ResourceKindPgBouncer)
    (meta_util : MetaUtil) (a : PgBouncerMutator) (object : RawExtension) :
    Admit api meta_util a { req with Object := object } =
      some { Allowed := true, Result := none, Patch := none, PatchType := none } := by
  unfold Admit
  rw [if_pos hskip]

/-- Witness of C11: a delete request, sent to a mutator that is not initialized, with a
payload that the codec cannot decode. -/
theorem Admit_passes_through_witness :
    Admit kubedb demoCodec { initialized := false } { deleteRequest "x" with Object := { Raw := "" } } =
      some { Allowed := true, Result := none, Patch := none, PatchType := none } :=
  Admit_passes_through kubedb (deleteRequest "x") (by decide) demoCodec { initialized := false }
    { Raw := "" }

/-! ## Theorems on `createDormantDatabase` -/

/-- C12: for every Redis `r`, `createDormantDatabase` submits exactly one record to the
store; the record has the name and namespace of `r`, `WipeOut = false`, an origin spec whose
Redis variant is the spec of `r`, and an origin metadata snapshot with the name, namespace,
labels, annotations and creation timestamp of `r`. -/
theorem createDormantDatabase_record (api : Api) (redis : Redis) (s : Cluster) :
    ∃ o dormantDb, createDormantDatabase api redis s = some o ∧
      o.events = [.CreateDormantDatabase dormantDb] ∧
      dormantDb.ObjectMeta.Name = redis.ObjectMeta.Name ∧
      dormantDb.ObjectMeta.Namespace = redis.ObjectMeta.Namespace ∧
      dormantDb.Spec.WipeOut = false ∧
      dormantDb.Spec.Origin.Spec.Redis = some redis.Spec ∧
      dormantDb.Spec.Origin.PartialObjectMeta.Name = redis.ObjectMeta.Name ∧
      dormantDb.Spec.Origin.PartialObjectMeta.Namespace = redis.ObjectMeta.Namespace ∧
      dormantDb.Spec.Origin.PartialObjectMeta.Labels = redis.ObjectMeta.Labels ∧
      dormantDb.Spec.Origin.PartialObjectMeta.Annotations = redis.ObjectMeta.Annotations ∧
      dormantDb.Spec.Origin.PartialObjectMeta.CreationTimestamp =
        redis.ObjectMeta.CreationTimestamp := by
  unfold createDormantDatabase DormantDatabases.Create Op.request
  cases hf : s.nextFault with
  | some err => exact ⟨_, _, rfl, rfl, rfl, rfl, rfl, rfl, rfl, rfl, rfl, rfl, rfl⟩
  | none => exact ⟨_, _, rfl, rfl, rfl, rfl, rfl, rfl, rfl, rfl, rfl, rfl, rfl⟩

/-! ## Theorems on `runMemcached`: patches that report not-found -/

/-- C13, as stated, fails: the cache still holds the Memcached but the store no longer does,
so the patch reports not-found; `runMemcached` returns that error, for the finalizer-adding
patch (`freshController`) and for the finalizer-removing patch (`succeedingCleanup`)
alike. -/
theorem runMemcached_patch_not_found_counterexample :
    (runMemcached kubedb freshController "demo/cache" {}).map (fun o => (o.val, o.events)) =
      some (some .NotFound,
        [.PatchMemcached freshMemcached
          { freshMemcached with
            ObjectMeta := AddFinalizer freshMemcached.ObjectMeta kubedb.GenericKey }]) ∧
    (runMemcached kubedb succeedingCleanup "demo/cache" {}).map (fun o => (o.val, o.events)) =
      some (some .NotFound,
        [.terminate deletingMemcached,
          .PatchMemcached deletingMemcached
            { deletingMemcached with
              ObjectMeta := RemoveFinalizer deletingMemcached.ObjectMeta kubedb.GenericKey }]) := by
  decide

/-- C13, amended: for every found object, if the patch attempt (the finalizer-removing patch
after a successful cleanup, or the finalizer-adding patch) returns an error, not-found or any
other, `runMemcached` returns that very error and leaves the cluster as the patch left it;
nothing is issued after the patch, and after a failed finalizer-adding patch `create` is not
called. In particular a patch that reports not-found makes `runMemcached` return
not-found. -/
theorem runMemcached_patch_not_found (api : Api) (c : Controller) (key : String) (s : Cluster)
    (memcached : Memcached)
    (hfound : c.GetByKey key = .ok (some memcached)) :
    (memcached.ObjectMeta.DeletionTimestamp ≠ none →
      HasFinalizer memcached.ObjectMeta api.GenericKey = true →
      (c.terminate memcached s).1 = none →
      ∀ p err, PatchMemcached memcached (fun in_ =>
          { in_ with ObjectMeta := RemoveFinalizer in_.ObjectMeta api.GenericKey })
          (c.terminate memcached s).2 = some p →
        p.val = .error err →
        runMemcached api c key s =
          some ⟨some err, p.cluster, Event.terminate memcached :: p.events⟩) ∧
    (memcached.ObjectMeta.DeletionTimestamp = none →
      ∀ p err, PatchMemcached memcached (fun in_ =>
          { in_ with ObjectMeta := AddFinalizer in_.ObjectMeta api.GenericKey }) s = some p →
        p.val = .error err →
        runMemcached api c key s = some ⟨some err, p.cluster, p.events⟩ ∧
          ∀ m, Event.create m ∉ p.events) ∧
    (∀ o, runMemcached api c key s = some o → o.val = none →
      (memcached.ObjectMeta.DeletionTimestamp ≠ none →
        HasFinalizer memcached.ObjectMeta api.GenericKey = true →
        (c.terminate memcached s).1 = none →
        ∀ p, PatchMemcached memcached (fun in_ =>
            { in_ with ObjectMeta := RemoveFinalizer in_.ObjectMeta api.GenericKey })
            (c.terminate memcached s).2 = some p →
          ∃ r, p.val = .ok r) ∧
      (memcached.ObjectMeta.DeletionTimestamp = none →
        ∀ p, PatchMemcached memcached (fun in_ =>
            { in_ with ObjectMeta := AddFinalizer in_.ObjectMeta api.GenericKey }) s = some p →
          ∃ r, p.val = .ok r)) := by
  have hremove : memcached.ObjectMeta.DeletionTimestamp ≠ none →
      HasFinalizer memcached.ObjectMeta api.GenericKey = true →
      (c.terminate memcached s).1 = none →
      ∀ p err, PatchMemcached memcached (fun in_ =>
          { in_ with ObjectMeta := RemoveFinalizer in_.ObjectMeta api.GenericKey })
          (c.terminate memcached s).2 = some p →
        p.val = .error err →
        runMemcached api c key s =
          some ⟨some err, p.cluster, Event.terminate memcached :: p.events⟩ := by
    intro hdel hfin hterm p err hp hv
    unfold runMemcached
    simp only [hfound, hdel, hfin, bind, Op.bind, Op.call, hterm, hp, hv, ne_eq,
      not_false_eq_true, if_true, pure, Op.pure, List.append_nil, List.singleton_append]
  have hadd : memcached.ObjectMeta.DeletionTimestamp = none →
      ∀ p err, PatchMemcached memcached (fun in_ =>
          { in_ with ObjectMeta := AddFinalizer in_.ObjectMeta api.GenericKey }) s = some p →
        p.val = .error err →
        runMemcached api c key s = some ⟨some err, p.cluster, p.events⟩ := by
    intro hdel p err hp hv
    unfold runMemcached
    simp only [hfound, hdel, bind, Op.bind, hp, hv, ne_eq, not_true_eq_false, if_false, pure,
      Op.pure, List.append_nil]
  refine ⟨hremove, ?_, ?_⟩
  · intro hdel p err hp hv
    refine ⟨hadd hdel p err hp hv, ?_⟩
    obtain ⟨p2, hp2, hpev, _⟩ := PatchMemcached_spec memcached
      (fun in_ => { in_ with ObjectMeta := AddFinalizer in_.ObjectMeta api.GenericKey }) s
    rw [hp] at hp2
    simp only [Option.some.injEq] at hp2
    subst hp2
    intro m
    rcases hpev with h | h <;> simp [h]
  · intro o ho hnone
    refine ⟨?_, ?_⟩
    · intro hdel hfin hterm p hp
      cases hv : p.val with
      | ok r => exact ⟨r, rfl⟩
      | error err =>
        rw [hremove hdel hfin hterm p err hp hv] at ho
        simp only [Option.some.injEq] at ho
        subst ho
        simp at hnone
    · intro hdel p hp
      cases hv : p.val with
      | ok r => exact ⟨r, rfl⟩
      | error err =>
        rw [hadd hdel p err hp hv] at ho
        simp only [Option.some.injEq] at ho
        subst ho
        simp at hnone

/-- Witness of C13: `freshMemcached` is in the cache and not in the store, so the
finalizer-adding patch reports not-found and `runMemcached` returns not-found. -/
theorem runMemcached_patch_not_found_witness :
    runMemcached kubedb freshController "demo/cache" {} =
        some ⟨some .NotFound, ({} : Cluster).advance,
          [.PatchMemcached freshMemcached
            { freshMemcached with
              ObjectMeta := AddFinalizer freshMemcached.ObjectMeta kubedb.GenericKey }]⟩ ∧
      ∀ m, Event.create m ∉
        [Event.PatchMemcached freshMemcached
          { freshMemcached with
            ObjectMeta := AddFinalizer freshMemcached.ObjectMeta kubedb.GenericKey }] :=
  (runMemcached_patch_not_found kubedb freshController "demo/cache" {} freshMemcached rfl).2.1
    rfl
    ⟨.error .NotFound, ({} : Cluster).advance,
      [.PatchMemcached freshMemcached
        { freshMemcached with
          ObjectMeta := AddFinalizer freshMemcached.ObjectMeta kubedb.GenericKey }]⟩
    .NotFound rfl rfl

/-! ## Theorems on the Service ports of a defaulted PgBouncer -/

theorem setMonitoringPort_ConnectionPool (api : Api) (x : PgBouncer) :
    (setMonitoringPort api x).Spec.ConnectionPool = x.Spec.ConnectionPool ∧
      (setMonitoringPort api x).Spec.ServiceTemplate = x.Spec.ServiceTemplate := by
  unfold setMonitoringPort
  cases x.Spec.Monitor with
  | none => exact ⟨rfl, rfl⟩
  | some monitor =>
    simp only
    split_ifs <;> exact ⟨rfl, rfl⟩

theorem fillSpecDefaults_ServiceTemplate (x : PgBouncer) :
    (fillSpecDefaults x).Spec.ServiceTemplate = x.Spec.ServiceTemplate := by
  obtain ⟨meta, ver, rep, tmpl, pool, mon⟩ := x
  cases rep <;> cases pool <;> simp [fillSpecDefaults]

theorem fillSpecDefaults_ConnectionPool_none (x : PgBouncer)
    (h : x.Spec.ConnectionPool = none) : (fillSpecDefaults x).Spec.ConnectionPool = none := by
  obtain ⟨meta, ver, rep, tmpl, pool, mon⟩ := x
  simp only at h
  subst h
  cases rep <;> simp [fillSpecDefaults]

theorem fillSpecDefaults_ConnectionPool_some (x : PgBouncer) (pool : ConnectionPoolConfig)
    (h : x.Spec.ConnectionPool = some pool) :
    ∃ pool2 port, (fillSpecDefaults x).Spec.ConnectionPool = some pool2 ∧
      pool2.Port = some port := by
  obtain ⟨meta, ver, rep, tmpl, cp, mon⟩ := x
  simp only at h
  subst h
  obtain ⟨port, mode, mx⟩ := pool
  refine ⟨{ Port := some (port.getD defaultListenPort),
            PoolMode := if mode = "" then defaultPoolMode else mode,
            MaxClientConnections := mx }, port.getD defaultListenPort, ?_, rfl⟩
  cases rep <;> cases port <;> by_cases hm : mode = "" <;> simp [fillSpecDefaults, hm]

/-- C14: on a defaulted object the service port computation never dereferences a missing
port: for every observed Service and every PgBouncer `p`,
`upsertServicePort in_ (setDefaultValues p)` is defined. When `p` has no connection pool the
defaulted object has none either, no `api` port is built and the port is not read; when `p`
has a connection pool the defaulted object has one whose port is set. -/
theorem upsertServicePort_defined_on_defaulted (api : Api) (in_ : Service) (p : PgBouncer) :
    (∃ ports, upsertServicePort in_ (setDefaultValues api p) = some ports) ∧
    (p.Spec.ConnectionPool = none →
      (setDefaultValues api p).Spec.ConnectionPool = none ∧
      upsertServicePort in_ (setDefaultValues api p) = some
        (ofst.MergeServicePorts (core_util.MergeServicePorts in_.Spec.Ports [])
          p.Spec.ServiceTemplate.Spec.Ports)) ∧
    (∀ pool, p.Spec.ConnectionPool = some pool →
      ∃ pool2 port, (setDefaultValues api p).Spec.ConnectionPool = some pool2 ∧
        pool2.Port = some port) := by
  have hcp := (setMonitoringPort_ConnectionPool api (fillSpecDefaults p)).1
  have hst := (setMonitoringPort_ConnectionPool api (fillSpecDefaults p)).2
  rw [← setDefaultValues_eq] at hcp hst
  have hnone : p.Spec.ConnectionPool = none →
      (setDefaultValues api p).Spec.ConnectionPool = none := by
    intro h
    rw [hcp]
    exact fillSpecDefaults_ConnectionPool_none p h
  have hsome : ∀ pool, p.Spec.ConnectionPool = some pool →
      ∃ pool2 port, (setDefaultValues api p).Spec.ConnectionPool = some pool2 ∧
        pool2.Port = some port := by
    intro pool h
    rw [hcp]
    exact fillSpecDefaults_ConnectionPool_some p pool h
  have hport : ∀ pool, (setDefaultValues api p).Spec.ConnectionPool = some pool →
      pool.Port ≠ none := by
    intro pool hpool
    cases h : p.Spec.ConnectionPool with
    | none =>
      rw [hnone h] at hpool
      simp at hpool
    | some pool0 =>
      obtain ⟨pool2, port, h2, hp2⟩ := hsome pool0 h
      rw [h2] at hpool
      simp only [Option.some.injEq] at hpool
      subst hpool
      simp [hp2]
  refine ⟨?_, ?_, hsome⟩
  · obtain ⟨dflt, hd⟩ := defaultPorts_isSome (setDefaultValues api p) hport
    exact ⟨_, by rw [upsertServicePort_eq, hd, Option.map_some']⟩
  · intro h
    refine ⟨hnone h, ?_⟩
    simp only [upsertServicePort, hnone h, hst, fillSpecDefaults_ServiceTemplate]

end Operator
